import Mathlib

/-!
# Verification of the JIT AWS access controller core

A shallow embedding, in Lean 4, of the core of the `jit-aws-controller`
repository: the HMAC authenticator (`internal/auth`), the DynamoDB store
operations (`internal/dynamo`), the request-service handlers
(`internal/handlers/handlers.go`), the Step Functions action handlers
(`internal/handlers/actions.go`) and the reconciler (`cmd/reconciler`).

Modelling conventions:

* Go byte slices are `List Nat` (each element a byte value); machine words in
  SHA-256 are `Nat` reduced modulo `2 ^ 32` at every operation that can
  overflow.
* External collaborators (the identity provider, the Step Functions starter,
  the webhook endpoint, the wall clock, the UUID generator) are inputs: an
  `Env` record supplies their responses, and the `World` state records every
  observable side effect (store contents, audit events, webhook payloads,
  workflow starts, identity revoke calls).
* DynamoDB is modelled functionally: tables are association lists keyed the
  way the real tables are keyed, conditional writes fail exactly when their
  condition expression would fail.  Infrastructure failures (throttles,
  transport errors) are out of the model; conditional-check failures, which
  are semantic, are in it.
* Fallible Go functions returning `error` become `Except String _`; the error
  strings mirror the Go `fmt.Errorf` text.
-/

/-! ## SHA-256 (crypto/sha256), bytes as `List Nat`, words as `Nat` mod `2^32` -/

/-- Reduce to a 32-bit word. -/
def w32 (x : Nat) : Nat := x % 4294967296

/-- Right rotation of a 32-bit word. -/
def rotr32 (x n : Nat) : Nat :=
  w32 ((w32 x >>> n) ||| (w32 x <<< (32 - n)))

/-- σ₀ of the SHA-256 message schedule. -/
def smallSigma0 (x : Nat) : Nat := (rotr32 x 7) ^^^ (rotr32 x 18) ^^^ (w32 x >>> 3)

/-- σ₁ of the SHA-256 message schedule. -/
def smallSigma1 (x : Nat) : Nat := (rotr32 x 17) ^^^ (rotr32 x 19) ^^^ (w32 x >>> 10)

/-- Σ₀ of the SHA-256 round function. -/
def bigSigma0 (x : Nat) : Nat := (rotr32 x 2) ^^^ (rotr32 x 13) ^^^ (rotr32 x 22)

/-- Σ₁ of the SHA-256 round function. -/
def bigSigma1 (x : Nat) : Nat := (rotr32 x 6) ^^^ (rotr32 x 11) ^^^ (rotr32 x 25)

/-- The SHA-256 choice function; complement is xor with the all-ones word. -/
def chFn (x y z : Nat) : Nat := (x &&& y) ^^^ ((x ^^^ 4294967295) &&& z)

/-- The SHA-256 majority function. -/
def majFn (x y z : Nat) : Nat := (x &&& y) ^^^ (x &&& z) ^^^ (y &&& z)

/-- The eight working variables of the SHA-256 state. -/
structure Hash8 where
  a : Nat
  b : Nat
  c : Nat
  d : Nat
  e : Nat
  f : Nat
  g : Nat
  h : Nat
deriving Repr, DecidableEq

/-- SHA-256 initial hash value (FIPS 180-4). -/
def sha256InitH : Hash8 :=
  ⟨1779033703, 3144134277, 1013904242,
   2773480762, 1359893119, 2600822924,
   528734635, 1541459225⟩

/-- The 64 SHA-256 round constants (FIPS 180-4). -/
def sha256K : List Nat :=
  [1116352408, 1899447441, 3049323471, 3921009573, 961987163,
   1508970993, 2453635748, 2870763221, 3624381080, 310598401,
   607225278, 1426881987, 1925078388, 2162078206, 2614888103,
   3248222580, 3835390401, 4022224774, 264347078, 604807628,
   770255983, 1249150122, 1555081692, 1996064986, 2554220882,
   2821834349, 2952996808, 3210313671, 3336571891, 3584528711,
   113926993, 338241895, 666307205, 773529912, 1294757372,
   1396182291, 1695183700, 1986661051, 2177026350, 2456956037,
   2730485921, 2820302411, 3259730800, 3345764771, 3516065817,
   3600352804, 4094571909, 275423344, 430227734, 506948616,
   659060556, 883997877, 958139571, 1322822218, 1537002063,
   1747873779, 1955562222, 2024104815, 2227730452, 2361852424,
   2428436474, 2756734187, 3204031479, 3329325298]

/-- Combine a byte stream into big-endian 32-bit words (four bytes per word). -/
def bytesToWords : List Nat → List Nat
  | b0 :: b1 :: b2 :: b3 :: rest =>
      ((b0 <<< 24) + (b1 <<< 16) + (b2 <<< 8) + b3) :: bytesToWords rest
  | _ => []

/-- The next word of the message schedule, from the words produced so far. -/
def schedNext (ws : List Nat) : Nat :=
  let n := ws.length
  w32 (ws.getD (n - 16) 0 + smallSigma0 (ws.getD (n - 15) 0) +
       ws.getD (n - 7) 0 + smallSigma1 (ws.getD (n - 2) 0))

/-- Extend the message schedule by `k` further words. -/
def extendW : List Nat → Nat → List Nat
  | ws, 0 => ws
  | ws, Nat.succ k => extendW (ws ++ [schedNext ws]) k

/-- One SHA-256 round, consuming a (round constant, schedule word) pair. -/
def roundStep (st : Hash8) (kw : Nat × Nat) : Hash8 :=
  let t1 := w32 (st.h + bigSigma1 st.e + chFn st.e st.f st.g + kw.1 + kw.2)
  let t2 := w32 (bigSigma0 st.a + majFn st.a st.b st.c)
  ⟨w32 (t1 + t2), st.a, st.b, st.c, w32 (st.d + t1), st.e, st.f, st.g⟩

/-- SHA-256 compression of a single 64-byte block into the running state. -/
def compress (st : Hash8) (block : List Nat) : Hash8 :=
  let ws := extendW (bytesToWords block) 48
  let fin := (sha256K.zip ws).foldl roundStep st
  ⟨w32 (st.a + fin.a), w32 (st.b + fin.b), w32 (st.c + fin.c), w32 (st.d + fin.d),
   w32 (st.e + fin.e), w32 (st.f + fin.f), w32 (st.g + fin.g), w32 (st.h + fin.h)⟩

/-- The message bit length as eight big-endian bytes. -/
def lenBytes (n : Nat) : List Nat :=
  [n >>> 56 % 256, n >>> 48 % 256, n >>> 40 % 256, n >>> 32 % 256,
   n >>> 24 % 256, n >>> 16 % 256, n >>> 8 % 256, n % 256]

/-- SHA-256 padding: a `0x80` byte, zeros to 56 mod 64, then the bit length. -/
def padMessage (msg : List Nat) : List Nat :=
  let l := msg.length
  let k := (64 - ((l + 9) % 64)) % 64
  msg ++ [128] ++ List.replicate k 0 ++ lenBytes (8 * l)

/-- Split a byte stream into 64-byte blocks. -/
def toBlocks : List Nat → List (List Nat)
  | [] => []
  | x :: xs => ((x :: xs).take 64) :: toBlocks ((x :: xs).drop 64)
termination_by l => l.length
decreasing_by
  simp only [List.length_drop, List.length_cons]
  omega

/-- The four big-endian bytes of a 32-bit word. -/
def wordBytesBE (w : Nat) : List Nat :=
  [w >>> 24 % 256, w >>> 16 % 256, w >>> 8 % 256, w % 256]

/-- SHA-256 of a byte stream: pad, compress each block, emit the state
big-endian. This models Go's `sha256.Sum256`. -/
def sha256 (msg : List Nat) : List Nat :=
  let fin := (toBlocks (padMessage msg)).foldl compress sha256InitH
  wordBytesBE fin.a ++ wordBytesBE fin.b ++ wordBytesBE fin.c ++ wordBytesBE fin.d ++
  wordBytesBE fin.e ++ wordBytesBE fin.f ++ wordBytesBE fin.g ++ wordBytesBE fin.h

/-! ## Hex encoding (encoding/hex) and UTF-8 bytes of a Go string -/

/-- The lowercase hex digit for a value below 16 (the `hex` package's
`0123456789abcdef` table). -/
def hexDigit (n : Nat) : Char :=
  if n < 10 then Char.ofNat (48 + n)
  else if n < 16 then Char.ofNat (87 + n)
  else 'f'

/-- Two lowercase hex characters of a byte, high nibble first. -/
def byteHex (b : Nat) : List Char := [hexDigit (b / 16 % 16), hexDigit (b % 16)]

/-- Lowercase hex encoding of a byte stream, as Go's `hex.EncodeToString`. -/
def hexEncode (bs : List Nat) : String := String.mk (List.flatten (bs.map byteHex))

/-- UTF-8 encoding of one character. -/
def utf8Char (c : Char) : List Nat :=
  let n := c.toNat
  if n < 128 then [n]
  else if n < 2048 then [192 + n / 64, 128 + n % 64]
  else if n < 65536 then [224 + n / 4096, 128 + n / 64 % 64, 128 + n % 64]
  else [240 + n / 262144, 128 + n / 4096 % 64, 128 + n / 64 % 64, 128 + n % 64]

/-- The bytes of a Go string: UTF-8, as Go's `[]byte(s)` conversion. -/
def strBytes (s : String) : List Nat := List.flatten (s.data.map utf8Char)

/-! ## HMAC-SHA256 (crypto/hmac with sha256.New, block size 64) -/

/-- Xor every byte of a key block with a pad byte. -/
def xorPad (key : List Nat) (p : Nat) : List Nat := key.map (fun b => b ^^^ p)

/-- HMAC key preparation: hash keys longer than the block size, then
zero-pad to the 64-byte block. -/
def hmacKey (key : List Nat) : List Nat :=
  let k := if 64 < key.length then sha256 key else key
  k ++ List.replicate (64 - k.length) 0

/-- HMAC-SHA256 over byte streams (RFC 2104, opad `0x5c`, ipad `0x36`). -/
def hmacSha256 (key msg : List Nat) : List Nat :=
  let k0 := hmacKey key
  sha256 (xorPad k0 92 ++ sha256 (xorPad k0 54 ++ msg))

/-! ### Digest shape lemmas -/

theorem wordBytesBE_length (w : Nat) : (wordBytesBE w).length = 4 := rfl

theorem wordBytesBE_lt (w : Nat) : ∀ b ∈ wordBytesBE w, b < 256 := by
  intro b hb
  simp only [wordBytesBE, List.mem_cons, List.not_mem_nil, or_false] at hb
  rcases hb with h | h | h | h <;> subst h <;> exact Nat.mod_lt _ (by norm_num)

/-- A SHA-256 digest is exactly 32 bytes. -/
theorem sha256_length (msg : List Nat) : (sha256 msg).length = 32 := by
  simp [sha256, wordBytesBE]

/-- Every byte of a SHA-256 digest is below 256. -/
theorem sha256_bytes_lt (msg : List Nat) : ∀ b ∈ sha256 msg, b < 256 := by
  intro b hb
  simp only [sha256, List.mem_append] at hb
  rcases hb with ((((((h | h) | h) | h) | h) | h) | h) | h <;>
    exact wordBytesBE_lt _ _ h

/-! ## Authenticator (internal/auth)

`HMACValidator.ValidateRequest`, `SignPayload`, `buildSigningMessage`,
`computeHMAC` and `headerValue`, embedded from `internal/auth/hmac.go`.
The signing-key map becomes an association list `List (String × String)`
of `(key_id, secret)` pairs; the Go code only tests membership, so map
iteration order is immaterial.  The nonce store is the set of stored
`(key_id, nonce)` pairs; the TTL attribute and DynamoDB's background
purge of expired entries are outside the model (every statement below is
"within the nonce's lifetime"). -/

/-- `maxTimestampSkew` (5 minutes), in seconds. -/
def maxTimestampSkewSeconds : Int := 300

/-- Header carrying the signing key identifier. -/
def HeaderKeyID : String := "X-JIT-KeyID"

/-- Header carrying the Unix epoch request timestamp. -/
def HeaderTimestamp : String := "X-JIT-Timestamp"

/-- Header carrying the unique request nonce. -/
def HeaderNonce : String := "X-JIT-Nonce"

/-- Header carrying the HMAC-SHA256 hex-encoded signature. -/
def HeaderSignature : String := "X-JIT-Signature"

/-- Case-insensitive header lookup: exact key first, then a scan comparing
lowercased keys, then the empty string (Go `headerValue`). -/
def headerValue (headers : List (String × String)) (key : String) : String :=
  match headers.find? (fun kv => kv.1 == key) with
  | some kv => kv.2
  | none =>
    match headers.find? (fun kv => kv.1.toLower == key.toLower) with
    | some kv => kv.2
    | none => ""

/-- All decimal digits, as a number (helper for `parseInt64`). -/
def parseDigits : List Char → Option Nat
  | [] => none
  | cs =>
    if cs.all (fun c => c.isDigit)
    then some (cs.foldl (fun acc c => 10 * acc + (c.toNat - 48)) 0)
    else none

/-- Go `strconv.ParseInt(s, 10, 64)`: optional sign, decimal digits, and the
64-bit signed range. -/
def parseInt64 (s : String) : Option Int :=
  let signed : Option Int :=
    match s.data with
    | '+' :: cs => (parseDigits cs).map (fun n => (n : Int))
    | '-' :: cs => (parseDigits cs).map (fun n => -(n : Int))
    | cs => (parseDigits cs).map (fun n => (n : Int))
  match signed with
  | some v => if v < -(2 ^ 63) ∨ (2 ^ 63 - 1 : Int) < v then none else some v
  | none => none

/-- The nonce table: the set of stored `(key_id, nonce)` pairs. -/
structure NonceState where
  pairs : List (String × String)
deriving Repr, DecidableEq

/-- `dynamo.Client.CheckNonce`: whether the pair is already stored. -/
def checkNonce (st : NonceState) (keyID nonce : String) : Bool :=
  st.pairs.contains (keyID, nonce)

/-- `dynamo.Client.StoreNonce`: a conditional put that fails when the
`(key_id, nonce)` item already exists.  The TTL attribute is carried by the
real item but plays no role before expiry, so it is dropped here. -/
def storeNonce (st : NonceState) (keyID nonce : String) (_ttlSeconds : Int) :
    Except String NonceState :=
  if st.pairs.contains (keyID, nonce) then .error "conditional check failed"
  else .ok ⟨(keyID, nonce) :: st.pairs⟩

/-- `buildSigningMessage`: the canonical message
`timestamp\nnonce\nMETHOD\npath\nhex(sha256(body))` (Go joins with
`strings.Join`; `strings.ToUpper` agrees with `String.toUpper` on the ASCII
method names in scope). -/
def buildSigningMessage (timestamp nonce method path : String) (body : List Nat) :
    String :=
  String.intercalate "\n"
    [timestamp, nonce, method.toUpper, path, hexEncode (sha256 body)]

/-- `computeHMAC`: HMAC-SHA256 of the message under the secret, lowercase hex. -/
def computeHMAC (secret message : String) : String :=
  hexEncode (hmacSha256 (strBytes secret) (strBytes message))

/-- `SignPayload`: the four signed headers for an outbound request.  The Go
function draws `timestamp` from the clock and `nonce` from a fresh UUID; both
are parameters here. -/
def signPayload (keyID secret timestamp nonce method path : String)
    (body : List Nat) : List (String × String) :=
  let signingMessage := buildSigningMessage timestamp nonce method path body
  let sig := computeHMAC secret signingMessage
  [(HeaderKeyID, keyID), (HeaderTimestamp, timestamp),
   (HeaderNonce, nonce), (HeaderSignature, sig)]

/-- `HMACValidator.ValidateRequest`: header presence, timestamp freshness,
nonce-replay check, signature match (the secret under the presented key id
first, then every configured secret for rotation tolerance), and finally the
conditional nonce insert whose conflict fails the validation.  Returns the
result together with the nonce store after the call. -/
def validateRequest (keys : List (String × String)) (now : Int)
    (st : NonceState) (method path : String)
    (headers : List (String × String)) (body : List Nat) :
    Except String Unit × NonceState :=
  let keyID := headerValue headers HeaderKeyID
  let timestamp := headerValue headers HeaderTimestamp
  let nonce := headerValue headers HeaderNonce
  let signature := headerValue headers HeaderSignature
  if keyID = "" ∨ timestamp = "" ∨ nonce = "" ∨ signature = "" then
    (.error "missing required HMAC headers", st)
  else
    match parseInt64 timestamp with
    | none => (.error "invalid timestamp format", st)
    | some ts =>
      let skew := if now - ts < 0 then ts - now else now - ts
      if maxTimestampSkewSeconds < skew then
        (.error "timestamp outside allowed skew", st)
      else if checkNonce st keyID nonce then
        (.error "nonce already used", st)
      else
        let signingMessage := buildSigningMessage timestamp nonce method path body
        let matched :=
          (keys.any (fun ks =>
              ks.1 == keyID && computeHMAC ks.2 signingMessage == signature)) ||
          (keys.any (fun ks => computeHMAC ks.2 signingMessage == signature))
        if matched then
          match storeNonce st keyID nonce (2 * maxTimestampSkewSeconds) with
          | .error e => (.error ("failed to store nonce: " ++ e), st)
          | .ok st2 => (.ok (), st2)
        else (.error "invalid signature", st)

/-- One inbound request, as `ValidateRequest` sees it. -/
structure AuthInput where
  method : String
  path : String
  headers : List (String × String)
  body : List Nat

/-- The `(key_id, nonce)` pair an inbound request presents. -/
def inputPair (i : AuthInput) : String × String :=
  (headerValue i.headers HeaderKeyID, headerValue i.headers HeaderNonce)

/-- Whether an `Except` result is a success. -/
def isOkB : Except String Unit → Bool
  | .ok _ => true
  | .error _ => false

/-- Run a sequence of inbound requests through the validator, threading the
nonce store, and record which of them validated. -/
def valTrace (keys : List (String × String)) (now : Int) :
    NonceState → List AuthInput → NonceState × List Bool
  | st, [] => (st, [])
  | st, i :: rest =>
    let r := validateRequest keys now st i.method i.path i.headers i.body
    let rec2 := valTrace keys now r.2 rest
    (rec2.1, isOkB r.1 :: rec2.2)

/-! ## Data model (internal/models) -/

/-- `models` status constants. -/
def StatusPending : String := "PENDING"
def StatusApproved : String := "APPROVED"
def StatusDenied : String := "DENIED"
def StatusGranted : String := "GRANTED"
def StatusRevoked : String := "REVOKED"
def StatusExpired : String := "EXPIRED"
def StatusError : String := "ERROR"

/-- `models` audit event type constants. -/
def EventRequested : String := "REQUESTED"
def EventApproved : String := "APPROVED"
def EventDenied : String := "DENIED"
def EventGranted : String := "GRANTED"
def EventRevoked : String := "REVOKED"
def EventExpired : String := "EXPIRED"
def EventError : String := "ERROR"

/-- `models.JitConfig`: one channel/account binding with its policy. -/
structure JitConfig where
  channelID : String
  accountID : String
  approverMMUserIDs : List String := []
  approvalPolicy : String := ""
  allowSelfApproval : Bool := false
  maxRequestHours : Int := 0
  sessionDurationMinutes : Int := 0
  updatedAt : String := ""
deriving Repr, DecidableEq

/-- `models.JitRequest`: one access request.  Timestamps are the opaque
RFC 3339 strings the Go code stores. -/
structure JitRequest where
  requestID : String
  accountID : String := ""
  channelID : String := ""
  requesterMMUserID : String := ""
  requesterEmail : String := ""
  jira : String := ""
  reason : String := ""
  requestedDurationMinutes : Int := 0
  status : String := ""
  createdAt : String := ""
  approvedAt : String := ""
  deniedAt : String := ""
  grantTime : String := ""
  revokedAt : String := ""
  expiredAt : String := ""
  endTime : String := ""
  approverMMUserID : String := ""
  approverEmail : String := ""
  identityStoreUserID : String := ""
  assignmentStatus : String := ""
  errorDetails : String := ""
deriving Repr, DecidableEq

/-- One audit row, as `audit.Logger.Log` records it (the generated event id
and timestamp are outside the model; claims only inspect types and counts). -/
structure AuditRec where
  requestID : String
  eventType : String
  accountID : String
  channelID : String
  actorMMUserID : String
  actorEmail : String
  details : List (String × String)
deriving Repr, DecidableEq

/-- `models.WebhookPayload`. -/
structure WebhookPayload where
  requestID : String
  status : String
  accountID : String
  channelID : String
  actor : String
  details : List (String × String) := []
deriving Repr, DecidableEq

/-- `models.StepFunctionInput`. -/
structure StepFunctionInput where
  requestID : String
  accountID : String
  channelID : String
  identityStoreUserID : String
  durationMinutes : Int
  requesterEmail : String
deriving Repr, DecidableEq

/-- `models.CreateRequestInput`. -/
structure CreateRequestInput where
  accountID : String
  channelID : String
  requesterMMUserID : String
  requesterEmail : String
  jira : String := ""
  reason : String := ""
  requestedDurationMinutes : Int
deriving Repr, DecidableEq

/-- `models.ApproveRequestInput`. -/
structure ApproveRequestInput where
  requestID : String
  approverMMUserID : String
  approverEmail : String
deriving Repr, DecidableEq

/-- `models.DenyRequestInput`. -/
structure DenyRequestInput where
  requestID : String
  denierMMUserID : String
  denierEmail : String
deriving Repr, DecidableEq

/-- `models.RevokeRequestInput`. -/
structure RevokeRequestInput where
  requestID : String
  actorMMUserID : String
  actorEmail : String
deriving Repr, DecidableEq

/-- `models.BindAccountInput`. -/
structure BindAccountInput where
  channelID : String
  accountID : String
deriving Repr, DecidableEq

/-- `handlers.ActionResult`: the response of a Step Functions action. -/
structure ActionResult where
  status : String
  requestID : String
  message : String := ""
deriving Repr, DecidableEq

/-! ## Store (internal/dynamo)

The config table is keyed `(channel_id, account_id)`; the requests table is
keyed `request_id`.  Conditional writes fail exactly when their DynamoDB
condition expression would. -/

/-- The two tables the handler claims touch. -/
structure DB where
  configs : List JitConfig
  requests : List JitRequest
deriving Repr, DecidableEq

/-- `GetConfig`: point lookup by `(channel_id, account_id)`. -/
def getConfig (db : DB) (channelID accountID : String) : Option JitConfig :=
  db.configs.find? (fun c => c.channelID == channelID && c.accountID == accountID)

/-- `GetChannelForAccount`: the `gsi_account` query with `Limit: 1` — the
first binding carrying the account, if any. -/
def getChannelForAccount (db : DB) (accountID : String) : Option JitConfig :=
  db.configs.find? (fun c => c.accountID == accountID)

/-- `PutConfig`: unconditional put, replacing the item with the same
`(channel_id, account_id)` key. -/
def putConfig (db : DB) (cfg : JitConfig) : DB :=
  { db with
    configs :=
      db.configs.filter
        (fun c => !(c.channelID == cfg.channelID && c.accountID == cfg.accountID))
      ++ [cfg] }

/-- `GetRequest`: point lookup by `request_id`. -/
def getRequest (db : DB) (requestID : String) : Option JitRequest :=
  db.requests.find? (fun r => r.requestID == requestID)

/-- `CreateRequest`: conditional put, `attribute_not_exists(request_id)`. -/
def createRequest (db : DB) (req : JitRequest) : Except String DB :=
  if db.requests.any (fun r => r.requestID == req.requestID)
  then .error "conditional check failed"
  else .ok { db with requests := db.requests ++ [req] }

/-- `ConditionalUpdateStatus`: apply the update map (here a record update
function mirroring the fields each call site sets) only when the stored
status equals `expectedStatus`; a missing item also fails the condition. -/
def conditionalUpdateStatus (db : DB) (requestID expectedStatus : String)
    (apply : JitRequest → JitRequest) : Except String DB :=
  match db.requests.find? (fun r => r.requestID == requestID) with
  | none => .error "conditional check failed"
  | some r =>
    if r.status == expectedStatus then
      .ok { db with
            requests := db.requests.map
              (fun q => if q.requestID == requestID then apply q else q) }
    else .error "conditional check failed"

/-- The value of a successful `Except`, or a fallback (for call sites that
ignore the returned error with `_ =`). -/
def exceptD (e : Except String DB) (d : DB) : DB :=
  match e with
  | .ok v => v
  | .error _ => d

/-! ## Handler state and environment -/

/-- Every observable side effect of a handler invocation: the store, the
append-only audit trail, the webhook payloads sent, the workflow executions
started, and the identity revoke calls issued. -/
structure World where
  db : DB
  audits : List AuditRec := []
  webhooks : List WebhookPayload := []
  sfnStarts : List StepFunctionInput := []
  revokeCalls : List (String × String) := []
deriving Repr, DecidableEq

/-- The external collaborators and sources of nondeterminism: identity
provider responses, the wall clock (`now`, and the computed `end_time` of a
creation), and the UUID generator. -/
structure Env where
  lookupUserByEmail : String → Except String String
  revokeAccess : String → String → Except String Unit
  now : String
  endTime : String
  freshID : String

/-- `audit.Logger.Log`: append one audit row (the unconditional audit put;
its infrastructure failures are ignored by every caller). -/
def auditLog (w : World) (requestID eventType accountID channelID
    actorMMUserID actorEmail : String) (details : List (String × String)) :
    World :=
  { w with audits := w.audits ++
      [⟨requestID, eventType, accountID, channelID, actorMMUserID, actorEmail,
        details⟩] }

/-- `webhook.Client.Notify`: record the payload (delivery failures are
ignored by every caller). -/
def notifyWebhook (w : World) (p : WebhookPayload) : World :=
  { w with webhooks := w.webhooks ++ [p] }

/-- Record an identity-provider revoke call. -/
def recordRevoke (w : World) (accountID userID : String) : World :=
  { w with revokeCalls := w.revokeCalls ++ [(accountID, userID)] }

/-! ## Request service handlers (internal/handlers/handlers.go) -/

/-- `HandleCreateRequest`: field validation, binding lookup, duration cap,
identity lookup, conditional insert with status PENDING, REQUESTED audit. -/
def handleCreateRequest (env : Env) (w : World) (input : CreateRequestInput) :
    Except String JitRequest × World :=
  if input.accountID = "" ∨ input.channelID = "" then
    (.error "account_id and channel_id are required", w)
  else if input.requesterMMUserID = "" ∨ input.requesterEmail = "" then
    (.error "requester_mm_user_id and requester_email are required", w)
  else if input.jira = "" ∧ input.reason = "" then
    (.error "either jira or reason must be provided", w)
  else if input.requestedDurationMinutes ≤ 0 then
    (.error "requested_duration_minutes must be positive", w)
  else
    match getConfig w.db input.channelID input.accountID with
    | none =>
      (.error ("no binding found for channel " ++ input.channelID ++
               " and account " ++ input.accountID), w)
    | some cfg =>
      let maxMinutes := cfg.maxRequestHours * 60
      if 0 < maxMinutes ∧ maxMinutes < input.requestedDurationMinutes then
        (.error ("requested duration " ++ toString input.requestedDurationMinutes ++
                 " minutes exceeds maximum " ++ toString maxMinutes ++ " minutes"), w)
      else
        match env.lookupUserByEmail input.requesterEmail with
        | .error e => (.error ("identity lookup: " ++ e), w)
        | .ok userID =>
          let req : JitRequest :=
            { requestID := env.freshID
              accountID := input.accountID
              channelID := input.channelID
              requesterMMUserID := input.requesterMMUserID
              requesterEmail := input.requesterEmail
              jira := input.jira
              reason := input.reason
              requestedDurationMinutes := input.requestedDurationMinutes
              status := StatusPending
              createdAt := env.now
              endTime := env.endTime
              identityStoreUserID := userID }
          match createRequest w.db req with
          | .error e => (.error ("create request: " ++ e), w)
          | .ok db2 =>
            let w2 := auditLog { w with db := db2 } env.freshID EventRequested
              input.accountID input.channelID input.requesterMMUserID
              input.requesterEmail
              [("jira", input.jira), ("reason", input.reason),
               ("requested_duration_minutes",
                toString input.requestedDurationMinutes)]
            (.ok req, w2)

/-- The tail of `HandleApproveRequest` after the authorization checks: the
conditional PENDING to APPROVED update, the APPROVED audit, the workflow
start (whose failure is logged and ignored), and the final re-read. -/
def approveCore (env : Env) (w : World) (input : ApproveRequestInput)
    (req : JitRequest) : Except String JitRequest × World :=
  match conditionalUpdateStatus w.db input.requestID StatusPending
      (fun r => { r with
                  status := StatusApproved
                  approvedAt := env.now
                  approverMMUserID := input.approverMMUserID
                  approverEmail := input.approverEmail }) with
  | .error e => (.error ("update to APPROVED: " ++ e), w)
  | .ok db2 =>
    let w2 := auditLog { w with db := db2 } input.requestID EventApproved
      req.accountID req.channelID input.approverMMUserID input.approverEmail []
    let sfInput : StepFunctionInput :=
      ⟨req.requestID, req.accountID, req.channelID, req.identityStoreUserID,
       req.requestedDurationMinutes, req.requesterEmail⟩
    let w3 := { w2 with sfnStarts := w2.sfnStarts ++ [sfInput] }
    (.ok ((getRequest w3.db input.requestID).getD req), w3)

/-- `HandleApproveRequest`: field checks, PENDING guard, then the approver
and self-approval checks — which the Go code runs only when the binding
lookup returned a non-nil config. -/
def handleApproveRequest (env : Env) (w : World) (input : ApproveRequestInput) :
    Except String JitRequest × World :=
  if input.requestID = "" then (.error "request_id is required", w)
  else if input.approverMMUserID = "" ∨ input.approverEmail = "" then
    (.error "approver_mm_user_id and approver_email are required", w)
  else
    match getRequest w.db input.requestID with
    | none => (.error ("request " ++ input.requestID ++ " not found"), w)
    | some req =>
      if req.status ≠ StatusPending then
        (.error ("request " ++ input.requestID ++ " is in status " ++
                 req.status ++ ", expected PENDING"), w)
      else
        match getConfig w.db req.channelID req.accountID with
        | some cfg =>
          if !(cfg.approverMMUserIDs.contains input.approverMMUserID) then
            (.error ("user " ++ input.approverMMUserID ++
                     " is not an authorized approver"), w)
          else if !cfg.allowSelfApproval &&
              input.approverMMUserID == req.requesterMMUserID then
            (.error "self-approval is not allowed", w)
          else approveCore env w input req
        | none => approveCore env w input req

/-- The tail of `HandleDenyRequest` after the authorization check: the
conditional PENDING to DENIED update, the DENIED audit (no webhook), and the
final re-read. -/
def denyCore (env : Env) (w : World) (input : DenyRequestInput)
    (req : JitRequest) : Except String JitRequest × World :=
  match conditionalUpdateStatus w.db input.requestID StatusPending
      (fun r => { r with
                  status := StatusDenied
                  deniedAt := env.now
                  approverMMUserID := input.denierMMUserID
                  approverEmail := input.denierEmail }) with
  | .error e => (.error ("update to DENIED: " ++ e), w)
  | .ok db2 =>
    let w2 := auditLog { w with db := db2 } input.requestID EventDenied
      req.accountID req.channelID input.denierMMUserID input.denierEmail []
    (.ok ((getRequest w2.db input.requestID).getD req), w2)

/-- `HandleDenyRequest`: like approve, with the approver-membership check
(no self-approval carve-out) — again run only when the binding is non-nil. -/
def handleDenyRequest (env : Env) (w : World) (input : DenyRequestInput) :
    Except String JitRequest × World :=
  if input.requestID = "" then (.error "request_id is required", w)
  else if input.denierMMUserID = "" ∨ input.denierEmail = "" then
    (.error "denier_mm_user_id and denier_email are required", w)
  else
    match getRequest w.db input.requestID with
    | none => (.error ("request " ++ input.requestID ++ " not found"), w)
    | some req =>
      if req.status ≠ StatusPending then
        (.error ("request " ++ input.requestID ++ " is in status " ++
                 req.status ++ ", expected PENDING"), w)
      else
        match getConfig w.db req.channelID req.accountID with
        | some cfg =>
          if !(cfg.approverMMUserIDs.contains input.denierMMUserID) then
            (.error ("user " ++ input.denierMMUserID ++
                     " is not an authorized approver"), w)
          else denyCore env w input req
        | none => denyCore env w input req

/-- `HandleRevokeRequest` (manual revoke): GRANTED guard, identity revoke
(on failure: best-effort GRANTED to ERROR update, return the failure), then
the conditional GRANTED to REVOKED update, REVOKED audit, REVOKED webhook. -/
def handleRevokeRequest (env : Env) (w : World) (input : RevokeRequestInput) :
    Except String JitRequest × World :=
  if input.requestID = "" then (.error "request_id is required", w)
  else if input.actorMMUserID = "" ∨ input.actorEmail = "" then
    (.error "actor_mm_user_id and actor_email are required", w)
  else
    match getRequest w.db input.requestID with
    | none => (.error ("request " ++ input.requestID ++ " not found"), w)
    | some req =>
      if req.status ≠ StatusGranted then
        (.error ("request " ++ input.requestID ++ " is in status " ++
                 req.status ++ ", expected GRANTED"), w)
      else
        let w1 := recordRevoke w req.accountID req.identityStoreUserID
        match env.revokeAccess req.accountID req.identityStoreUserID with
        | .error e =>
          let db2 := exceptD
            (conditionalUpdateStatus w1.db input.requestID StatusGranted
              (fun r => { r with status := StatusError, errorDetails := e }))
            w1.db
          (.error ("revoke access: " ++ e), { w1 with db := db2 })
        | .ok _ =>
          match conditionalUpdateStatus w1.db input.requestID StatusGranted
              (fun r => { r with
                          status := StatusRevoked
                          revokedAt := env.now }) with
          | .error e => (.error ("update to REVOKED: " ++ e), w1)
          | .ok db2 =>
            let w2 := auditLog { w1 with db := db2 } input.requestID EventRevoked
              req.accountID req.channelID input.actorMMUserID input.actorEmail []
            let w3 := notifyWebhook w2
              ⟨input.requestID, StatusRevoked, req.accountID, req.channelID,
               input.actorEmail, []⟩
            (.ok ((getRequest w3.db input.requestID).getD req), w3)

/-- The tail of `HandleBindAccount`: build the default binding, preserve the
settings of an existing `(channel, account)` config, put it. -/
def bindPut (env : Env) (w : World) (input : BindAccountInput) :
    Except String JitConfig × World :=
  let base : JitConfig :=
    { channelID := input.channelID
      accountID := input.accountID
      approvalPolicy := "one_of_n"
      maxRequestHours := 4
      updatedAt := env.now }
  let cfg :=
    match getConfig w.db input.channelID input.accountID with
    | some ec =>
      { base with
        approverMMUserIDs := ec.approverMMUserIDs
        approvalPolicy := ec.approvalPolicy
        allowSelfApproval := ec.allowSelfApproval
        maxRequestHours := ec.maxRequestHours
        sessionDurationMinutes := ec.sessionDurationMinutes }
    | none => base
  (.ok cfg, { w with db := putConfig w.db cfg })

/-- `HandleBindAccount`: reject when the account is already bound to a
different channel; otherwise put the binding. -/
def handleBindAccount (env : Env) (w : World) (input : BindAccountInput) :
    Except String JitConfig × World :=
  if input.channelID = "" ∨ input.accountID = "" then
    (.error "channel_id and account_id are required", w)
  else
    match getChannelForAccount w.db input.accountID with
    | some existing =>
      if existing.channelID ≠ input.channelID then
        (.error ("account " ++ input.accountID ++
                 " is already bound to channel " ++ existing.channelID), w)
      else bindPut env w input
    | none => bindPut env w input

/-! ## Step Functions revoke action (internal/handlers/actions.go) -/

/-- `ActionHandler.handleRevoke`: short-circuit with success when the request
is already REVOKED or EXPIRED; identity revoke; conditional GRANTED to
EXPIRED update whose conflict is swallowed as `already_handled`; EXPIRED
audit only on a successful update. -/
def handleRevoke (env : Env) (w : World) (requestID : String) :
    Except String ActionResult × World :=
  match getRequest w.db requestID with
  | none => (.error ("request " ++ requestID ++ " not found"), w)
  | some req =>
    if req.status = StatusRevoked ∨ req.status = StatusExpired then
      (.ok ⟨req.status, requestID, "already revoked or expired"⟩, w)
    else
      let w1 := recordRevoke w req.accountID req.identityStoreUserID
      match env.revokeAccess req.accountID req.identityStoreUserID with
      | .error e => (.error ("revoke access: " ++ e), w1)
      | .ok _ =>
        match conditionalUpdateStatus w1.db requestID StatusGranted
            (fun r => { r with
                        status := StatusExpired
                        expiredAt := env.now }) with
        | .error _ =>
          (.ok ⟨"already_handled", requestID,
                "conditional update failed, likely already revoked"⟩, w1)
        | .ok db2 =>
          (.ok ⟨"expired", requestID, ""⟩,
           auditLog { w1 with db := db2 } requestID EventExpired
             req.accountID req.channelID "" "system" [])

/-! ## Reconciler (cmd/reconciler/main.go) -/

/-- `Reconciler.revokeExpired`: identity revoke (on failure: best-effort
GRANTED to ERROR update with `error_details`, ERROR audit, return the
failure); conditional GRANTED to EXPIRED update whose conflict is swallowed
as success with no EXPIRED audit; EXPIRED audit and webhook on success. -/
def revokeExpired (env : Env) (w : World) (req : JitRequest) :
    Except String Unit × World :=
  let w1 := recordRevoke w req.accountID req.identityStoreUserID
  match env.revokeAccess req.accountID req.identityStoreUserID with
  | .error e =>
    let db2 := exceptD
      (conditionalUpdateStatus w1.db req.requestID StatusGranted
        (fun r => { r with
                    status := StatusError
                    errorDetails := "reconciler revoke failed: " ++ e }))
      w1.db
    let w2 := auditLog { w1 with db := db2 } req.requestID EventError
      req.accountID req.channelID "" "reconciler" [("error", e)]
    (.error ("revoke access for " ++ req.requestID ++ ": " ++ e), w2)
  | .ok _ =>
    match conditionalUpdateStatus w1.db req.requestID StatusGranted
        (fun r => { r with status := StatusExpired, expiredAt := env.now }) with
    | .error _ => (.ok (), w1)
    | .ok db2 =>
      let w2 := auditLog { w1 with db := db2 } req.requestID EventExpired
        req.accountID req.channelID "" "reconciler" []
      let w3 := notifyWebhook w2
        ⟨req.requestID, StatusExpired, req.accountID, req.channelID,
         "reconciler", []⟩
      (.ok (), w3)

/-- The reconciler's loop body: run `revokeExpired` for each overdue grant,
counting failures and continuing past them. -/
def reconcileAll (env : Env) : World → List JitRequest → Nat × World
  | w, [] => (0, w)
  | w, r :: rest =>
    let step := revokeExpired env w r
    let rec2 := reconcileAll env step.2 rest
    ((if isOkB step.1 then 0 else 1) + rec2.1, rec2.2)

/-- Byte-wise lexicographic order, as DynamoDB compares string sort keys. -/
def bytesLe : List Nat → List Nat → Bool
  | x :: xs, y :: ys =>
      if x < y then true
      else if y < x then false
      else bytesLe xs ys
  | [], _ => true
  | _, _ => false

/-- `end_time <= :et` on the UTF-8 bytes of the two RFC 3339 strings. -/
def strLe (s1 s2 : String) : Bool := bytesLe (strBytes s1) (strBytes s2)

/-- The `status = GRANTED AND end_time <= now` reconciler query
(`QueryRequestsByStatus`). -/
def overdueGrants (db : DB) (now : String) : List JitRequest :=
  db.requests.filter (fun r => r.status == StatusGranted && strLe r.endTime now)

/-- `Reconciler.Handle`: query overdue grants, process each, and return an
aggregate error (after logging a warning) when any single request errored. -/
def reconcilerHandle (env : Env) (w : World) : Except String Unit × World :=
  let reqs := overdueGrants w.db env.now
  let run := reconcileAll env w reqs
  if 0 < run.1 then
    (.error ("reconciler completed with " ++ toString run.1 ++
             " errors out of " ++ toString reqs.length), run.2)
  else (.ok (), run.2)

/-! ## The canonical signing format (claim C4) -/

/-- The sixteen lowercase hex characters. -/
def lowercaseHexChars : List Char := "0123456789abcdef".data

theorem hexDigit_mem (n : Nat) : hexDigit n ∈ lowercaseHexChars := by
  unfold hexDigit
  by_cases h1 : n < 10
  · rw [if_pos h1]
    interval_cases n <;> decide
  · rw [if_neg h1]
    by_cases h2 : n < 16
    · rw [if_pos h2]
      interval_cases n <;> decide
    · rw [if_neg h2]
      decide

theorem byteHex_length (b : Nat) : (byteHex b).length = 2 := rfl

theorem byteHex_chars (b : Nat) : ∀ c ∈ byteHex b, c ∈ lowercaseHexChars := by
  intro c hc
  simp only [byteHex, List.mem_cons, List.not_mem_nil, or_false] at hc
  rcases hc with h | h <;> subst h <;> exact hexDigit_mem _

theorem hexEncode_length (bs : List Nat) : (hexEncode bs).length = 2 * bs.length := by
  induction bs with
  | nil => rfl
  | cons b rest ih =>
    simp only [hexEncode, String.length, List.map_cons, List.flatten_cons,
      List.length_append, List.length_cons, byteHex_length] at ih ⊢
    omega

theorem hexEncode_chars (bs : List Nat) :
    ∀ c ∈ (hexEncode bs).data, c ∈ lowercaseHexChars := by
  intro c hc
  simp only [hexEncode, List.mem_flatten, List.mem_map] at hc
  obtain ⟨sub, ⟨b, _, rfl⟩, hcsub⟩ := hc
  exact byteHex_chars b c hcsub

/-- The spec's canonical signing message, written from the spec's words for
the refinement comparison: the five fields `timestamp`, `nonce`, `METHOD`
(uppercase), `path`, `hex(sha256(body))`, joined in that order by single
newline characters. -/
def specSigningMessage (timestamp nonce method path : String)
    (body : List Nat) : String :=
  timestamp ++ "\n" ++ nonce ++ "\n" ++ method.toUpper ++ "\n" ++ path ++
    "\n" ++ hexEncode (sha256 body)

theorem hmacSha256_length (key msg : List Nat) :
    (hmacSha256 key msg).length = 32 := by
  simp [hmacSha256, sha256_length]

/-- C4: for every timestamp, nonce, method, path, body and key, the signing
message built by `buildSigningMessage` is exactly the five fields
`timestamp`, `nonce`, uppercased method, `path`, and the lowercase-hex
SHA-256 of the body, joined in that order by single newlines; the signature
header `SignPayload` emits is the HMAC-SHA256 of that message under the key,
and that emitted signature is 64 characters of lowercase hex. -/
theorem signing_message_and_signature_canonical
    (timestamp nonce method path secret keyID : String) (body : List Nat) :
    buildSigningMessage timestamp nonce method path body =
      specSigningMessage timestamp nonce method path body
    ∧ headerValue (signPayload keyID secret timestamp nonce method path body)
        HeaderSignature =
      computeHMAC secret (buildSigningMessage timestamp nonce method path body)
    ∧ computeHMAC secret (buildSigningMessage timestamp nonce method path body) =
      hexEncode (hmacSha256 (strBytes secret)
        (strBytes (buildSigningMessage timestamp nonce method path body)))
    ∧ (computeHMAC secret
        (buildSigningMessage timestamp nonce method path body)).length = 64
    ∧ ∀ c ∈ (computeHMAC secret
        (buildSigningMessage timestamp nonce method path body)).data,
        c ∈ lowercaseHexChars := by
  refine ⟨?_, ?_, rfl, ?_, ?_⟩
  · simp [buildSigningMessage, specSigningMessage, String.intercalate,
      String.intercalate.go, String.append_assoc]
  · rfl
  · simp [computeHMAC, hexEncode_length, hmacSha256_length]
  · exact hexEncode_chars _

/-! ## Validator structure lemmas -/

/-- The rotation fallback subsumes the direct key-id match: the two Go loops
together accept exactly when some configured secret produces the presented
signature. -/
theorem matched_iff_any (keys : List (String × String)) (keyID msg sig : String) :
    ((keys.any (fun ks => ks.1 == keyID && computeHMAC ks.2 msg == sig)) ||
     (keys.any (fun ks => computeHMAC ks.2 msg == sig))) = true ↔
    (keys.any (fun ks => computeHMAC ks.2 msg == sig)) = true := by
  simp only [Bool.or_eq_true, List.any_eq_true, Bool.and_eq_true, beq_iff_eq]
  constructor
  · rintro (⟨ks, hmem, -, h2⟩ | h)
    · exact ⟨ks, hmem, h2⟩
    · exact h
  · exact fun h => Or.inr h

/-- Every run of `ValidateRequest` either fails and leaves the nonce store
untouched, or succeeds, in which case the presented `(key_id, nonce)` pair was
absent and the final store is exactly the old one with that pair inserted. -/
theorem validateRequest_shape (keys : List (String × String)) (now : Int)
    (st : NonceState) (m p : String) (hs : List (String × String))
    (b : List Nat) :
    (∃ e, validateRequest keys now st m p hs b = (.error e, st)) ∨
    (validateRequest keys now st m p hs b =
        (.ok (), ⟨(headerValue hs HeaderKeyID, headerValue hs HeaderNonce) ::
                  st.pairs⟩) ∧
      st.pairs.contains
        (headerValue hs HeaderKeyID, headerValue hs HeaderNonce) = false) := by
  simp only [validateRequest]
  split
  · exact Or.inl ⟨_, rfl⟩
  · split
    · exact Or.inl ⟨_, rfl⟩
    · split
      all_goals
        split
        · exact Or.inl ⟨_, rfl⟩
        · split
          · exact Or.inl ⟨_, rfl⟩
          · rename_i hnon
            split
            · simp only [checkNonce] at hnon
              rw [storeNonce, if_neg (by simpa using hnon)]
              exact Or.inr ⟨rfl, by simpa using hnon⟩
            · exact Or.inl ⟨_, rfl⟩

/-- A successful validation implies every check passed: all four headers
present, the timestamp parsed and fresh, the `(key_id, nonce)` pair not yet
stored, and the signature equal to the MAC under some configured secret. -/
theorem validateRequest_ok_conditions (keys : List (String × String))
    (now : Int) (st : NonceState) (m p : String)
    (hs : List (String × String)) (b : List Nat)
    (h : (validateRequest keys now st m p hs b).1 = .ok ()) :
    headerValue hs HeaderKeyID ≠ "" ∧
    headerValue hs HeaderTimestamp ≠ "" ∧
    headerValue hs HeaderNonce ≠ "" ∧
    headerValue hs HeaderSignature ≠ "" ∧
    (∃ ts, parseInt64 (headerValue hs HeaderTimestamp) = some ts ∧
      (if now - ts < 0 then ts - now else now - ts) ≤ maxTimestampSkewSeconds) ∧
    st.pairs.contains
      (headerValue hs HeaderKeyID, headerValue hs HeaderNonce) = false ∧
    (keys.any (fun ks => computeHMAC ks.2
        (buildSigningMessage (headerValue hs HeaderTimestamp)
          (headerValue hs HeaderNonce) m p b) ==
      headerValue hs HeaderSignature)) = true := by
  simp only [validateRequest] at h
  split at h
  · simp at h
  · rename_i hne
    push_neg at hne
    split at h
    · simp at h
    · rename_i ts hts
      split at h
      all_goals
        rename_i habs
        split at h
        · simp at h
        · rename_i hskew
          split at h
          · simp at h
          · rename_i hnon
            split at h
            · rename_i hmatched
              refine ⟨hne.1, hne.2.1, hne.2.2.1, hne.2.2.2, ⟨ts, hts, ?_⟩,
                by simpa [checkNonce] using hnon,
                (matched_iff_any _ _ _ _).mp hmatched⟩
              split <;> omega
            · simp at h

/-- If every check passes — all headers present, fresh timestamp, unused
nonce, and some configured secret matching the signature — then
`ValidateRequest` succeeds and inserts the `(key_id, nonce)` pair. -/
theorem validateRequest_ok_of (keys : List (String × String)) (now : Int)
    (st : NonceState) (m p : String) (hs : List (String × String))
    (b : List Nat) (ts : Int)
    (h1 : headerValue hs HeaderKeyID ≠ "")
    (h2 : headerValue hs HeaderTimestamp ≠ "")
    (h3 : headerValue hs HeaderNonce ≠ "")
    (h4 : headerValue hs HeaderSignature ≠ "")
    (hts : parseInt64 (headerValue hs HeaderTimestamp) = some ts)
    (hskew : (if now - ts < 0 then ts - now else now - ts) ≤
      maxTimestampSkewSeconds)
    (hnon : st.pairs.contains
      (headerValue hs HeaderKeyID, headerValue hs HeaderNonce) = false)
    (hmatch : (keys.any (fun ks => computeHMAC ks.2
        (buildSigningMessage (headerValue hs HeaderTimestamp)
          (headerValue hs HeaderNonce) m p b) ==
      headerValue hs HeaderSignature)) = true) :
    validateRequest keys now st m p hs b =
      (.ok (), ⟨(headerValue hs HeaderKeyID, headerValue hs HeaderNonce) ::
                st.pairs⟩) := by
  simp only [validateRequest]
  rw [if_neg (by push_neg; exact ⟨h1, h2, h3, h4⟩), hts]
  simp only
  rw [if_neg (by by_cases hq : now - ts < 0 <;> simp [hq] at hskew ⊢ <;> omega)]
  rw [if_neg (by simp only [checkNonce, hnon]; exact Bool.false_ne_true)]
  rw [if_pos ((matched_iff_any _ _ _ _).mpr hmatch)]
  rw [storeNonce, if_neg (by simp only [hnon]; exact Bool.false_ne_true)]

/-- `ValidateRequest` never removes stored nonces: the nonce store only
grows. -/
theorem validateRequest_pairs_mono (keys : List (String × String)) (now : Int)
    (st : NonceState) (m p : String) (hs : List (String × String))
    (b : List Nat) :
    ∀ x ∈ st.pairs, x ∈ (validateRequest keys now st m p hs b).2.pairs := by
  intro x hx
  rcases validateRequest_shape keys now st m p hs b with ⟨e, heq⟩ | ⟨heq, -⟩ <;>
    rw [heq] <;> simp [hx]

/-- A pair present in the store stays present along any validation trace. -/
theorem valTrace_pairs_mono (keys : List (String × String)) (now : Int) :
    ∀ (is : List AuthInput) (st : NonceState) (x : String × String),
      x ∈ st.pairs → x ∈ (valTrace keys now st is).1.pairs := by
  intro is
  induction is with
  | nil => intro st x hx; simpa [valTrace] using hx
  | cons i rest ih =>
    intro st x hx
    simp only [valTrace]
    exact ih _ x (validateRequest_pairs_mono keys now st i.method i.path
      i.headers i.body x hx)

/-- A validation that succeeds at any position of a trace presents a
`(key_id, nonce)` pair that was not in the store when the trace began. -/
theorem valTrace_ok_not_mem (keys : List (String × String)) (now : Int) :
    ∀ (is : List AuthInput) (st : NonceState) (j : Nat) (i : AuthInput),
      (valTrace keys now st is).2[j]? = some true → is[j]? = some i →
      inputPair i ∉ st.pairs := by
  intro is
  induction is with
  | nil => intro st j i hok hi; simp [valTrace] at hok
  | cons a rest ih =>
    intro st j i hok hi hmem
    cases j with
    | zero =>
      simp only [valTrace, List.getElem?_cons_zero, Option.some.injEq] at hok hi
      subst hi
      rcases validateRequest_shape keys now st a.method a.path a.headers a.body
        with ⟨e, heq⟩ | ⟨heq, hfresh⟩
      · rw [heq] at hok; simp [isOkB] at hok
      · exact absurd (List.elem_iff.mpr hmem)
          (by simp only [inputPair]; simp at hfresh ⊢; exact hfresh)
    | succ j2 =>
      simp only [valTrace, List.getElem?_cons_succ] at hok hi
      exact ih _ j2 i hok hi
        (validateRequest_pairs_mono keys now st a.method a.path a.headers
          a.body _ hmem)

/-- Two successful validations at ordered positions of a trace present
different `(key_id, nonce)` pairs. -/
theorem valTrace_distinct_lt (keys : List (String × String)) (now : Int) :
    ∀ (is : List AuthInput) (st : NonceState) (i j : Nat) (a b2 : AuthInput),
      i < j →
      (valTrace keys now st is).2[i]? = some true →
      (valTrace keys now st is).2[j]? = some true →
      is[i]? = some a → is[j]? = some b2 →
      inputPair a ≠ inputPair b2 := by
  intro is
  induction is with
  | nil => intro st i j a b2 hij hoki hokj hia hjb; simp [valTrace] at hoki
  | cons x rest ih =>
    intro st i j a b2 hij hoki hokj hia hjb
    cases i with
    | zero =>
      cases j with
      | zero => omega
      | succ j2 =>
        simp only [valTrace, List.getElem?_cons_zero, List.getElem?_cons_succ,
          Option.some.injEq] at hoki hokj hia hjb
        subst hia
        rcases validateRequest_shape keys now st x.method x.path x.headers
          x.body with ⟨e, heq⟩ | ⟨heq, -⟩
        · rw [heq] at hoki; simp [isOkB] at hoki
        · intro hpair
          have hmem : inputPair b2 ∈
              ((validateRequest keys now st x.method x.path x.headers
                x.body).2).pairs := by
            rw [heq, ← hpair]
            simp [inputPair]
          exact valTrace_ok_not_mem keys now rest _ j2 b2 hokj hjb hmem
    | succ i2 =>
      cases j with
      | zero => omega
      | succ j2 =>
        simp only [valTrace, List.getElem?_cons_succ] at hoki hokj hia hjb
        exact ih _ i2 j2 a b2 (by omega) hoki hokj hia hjb

/-- C3: an inbound request whose `(key_id, nonce)` pair is already stored
never validates; a validation that succeeds found the pair absent and
records it through the unique-constraint insert (whose conflict would fail
the validation); and consequently no two successful validations in any
sequence of inbound requests ever observe the same `(key_id, nonce)` pair
(within the nonce's lifetime — store purges are outside the model). -/
theorem nonce_observed_at_most_once :
    (∀ (keys : List (String × String)) (now : Int) (st : NonceState)
        (m p : String) (hs : List (String × String)) (b : List Nat),
      st.pairs.contains
        (headerValue hs HeaderKeyID, headerValue hs HeaderNonce) = true →
      (validateRequest keys now st m p hs b).1 ≠ .ok ()) ∧
    (∀ (keys : List (String × String)) (now : Int) (st : NonceState)
        (m p : String) (hs : List (String × String)) (b : List Nat),
      (validateRequest keys now st m p hs b).1 = .ok () →
      st.pairs.contains
        (headerValue hs HeaderKeyID, headerValue hs HeaderNonce) = false ∧
      (validateRequest keys now st m p hs b).2.pairs =
        (headerValue hs HeaderKeyID, headerValue hs HeaderNonce) ::
          st.pairs) ∧
    (∀ (keys : List (String × String)) (now : Int) (is : List AuthInput)
        (st : NonceState) (i j : Nat) (a b2 : AuthInput), i ≠ j →
      (valTrace keys now st is).2[i]? = some true →
      (valTrace keys now st is).2[j]? = some true →
      is[i]? = some a → is[j]? = some b2 →
      inputPair a ≠ inputPair b2) := by
  refine ⟨?_, ?_, ?_⟩
  · intro keys now st m p hs b hpresent hok
    have hfresh :=
      (validateRequest_ok_conditions keys now st m p hs b hok).2.2.2.2.2.1
    rw [hpresent] at hfresh
    exact Bool.noConfusion hfresh
  · intro keys now st m p hs b hok
    rcases validateRequest_shape keys now st m p hs b with ⟨e, heq⟩ | ⟨heq, hfresh⟩
    · rw [heq] at hok; simp at hok
    · rw [heq]
      exact ⟨hfresh, rfl⟩
  · intro keys now is st i j a b2 hij hoki hokj hia hjb
    rcases Nat.lt_or_ge i j with hlt | hge
    · exact valTrace_distinct_lt keys now is st i j a b2 hlt hoki hokj hia hjb
    · have hlt : j < i := by omega
      exact fun hpair =>
        valTrace_distinct_lt keys now is st j i b2 a hlt hokj hoki hjb hia
          hpair.symm

/-- A concrete key set for instantiating the validator theorems. -/
def sampleKeys : List (String × String) := [("k1", "s1")]

/-- A concrete inbound request signed with `SignPayload` under `sampleKeys`,
carrying the given nonce, timestamp 100, empty body. -/
def sampleInput (nonce : String) : AuthInput :=
  ⟨"POST", "/requests", signPayload "k1" "s1" "100" nonce "POST" "/requests" [],
   []⟩

theorem sample_signature_ne_empty (nonce : String) :
    headerValue (sampleInput nonce).headers HeaderSignature ≠ "" := by
  intro h
  have h64 : (computeHMAC "s1"
      (buildSigningMessage "100" nonce "POST" "/requests" [])).length = 64 := by
    simp [computeHMAC, hexEncode_length, hmacSha256_length]
  rw [show headerValue (sampleInput nonce).headers HeaderSignature =
    computeHMAC "s1" (buildSigningMessage "100" nonce "POST" "/requests" [])
    from rfl] at h
  rw [h] at h64
  exact absurd h64 (by decide)

theorem sample_signature_matches (nonce : String) :
    (sampleKeys.any (fun ks => computeHMAC ks.2
        (buildSigningMessage
          (headerValue (sampleInput nonce).headers HeaderTimestamp)
          (headerValue (sampleInput nonce).headers HeaderNonce)
          "POST" "/requests" []) ==
      headerValue (sampleInput nonce).headers HeaderSignature)) = true := by
  refine List.any_eq_true.mpr ⟨("k1", "s1"), by simp [sampleKeys], ?_⟩
  exact beq_self_eq_true
    (computeHMAC "s1" (buildSigningMessage "100" nonce "POST" "/requests" []))

/-- The first sample request validates from the empty store. -/
theorem sample_validate_one :
    validateRequest sampleKeys 100 ⟨[]⟩ "POST" "/requests"
      (sampleInput "n1").headers [] = (.ok (), ⟨[("k1", "n1")]⟩) :=
  validateRequest_ok_of sampleKeys 100 ⟨[]⟩ "POST" "/requests"
    (sampleInput "n1").headers [] 100
    (by decide) (by decide) (by decide) (sample_signature_ne_empty "n1")
    (by decide) (by decide) (by decide) (sample_signature_matches "n1")

/-- The second sample request (fresh nonce) validates from the store holding
the first nonce. -/
theorem sample_validate_two :
    validateRequest sampleKeys 100 ⟨[("k1", "n1")]⟩ "POST" "/requests"
      (sampleInput "n2").headers [] =
      (.ok (), ⟨[("k1", "n2"), ("k1", "n1")]⟩) :=
  validateRequest_ok_of sampleKeys 100 ⟨[("k1", "n1")]⟩ "POST" "/requests"
    (sampleInput "n2").headers [] 100
    (by decide) (by decide) (by decide) (sample_signature_ne_empty "n2")
    (by decide) (by decide) (by decide)
    (sample_signature_matches "n2")

/-- Both sample requests succeed when run as a trace. -/
theorem sample_trace_results :
    (valTrace sampleKeys 100 ⟨[]⟩ [sampleInput "n1", sampleInput "n2"]).2 =
      [true, true] := by
  show (valTrace sampleKeys 100 ⟨[]⟩ [sampleInput "n1", sampleInput "n2"]).2 =
    [true, true]
  simp only [valTrace]
  rw [show (sampleInput "n1").method = "POST" from rfl,
      show (sampleInput "n1").path = "/requests" from rfl,
      show (sampleInput "n1").body = [] from rfl,
      sample_validate_one]
  rw [show (sampleInput "n2").method = "POST" from rfl,
      show (sampleInput "n2").path = "/requests" from rfl,
      show (sampleInput "n2").body = [] from rfl,
      sample_validate_two]
  rfl

/-- Witness for `nonce_observed_at_most_once` at concrete inputs: a replayed
pair is rejected, a successful validation from the empty store records its
pair, and the two successful trace positions carry different pairs. -/
theorem nonce_observed_at_most_once_witness :
    ((validateRequest sampleKeys 100 ⟨[("k1", "n1")]⟩ "POST" "/requests"
        (sampleInput "n1").headers []).1 ≠ .ok ()) ∧
    ((⟨[]⟩ : NonceState).pairs.contains
        (headerValue (sampleInput "n1").headers HeaderKeyID,
         headerValue (sampleInput "n1").headers HeaderNonce) = false ∧
      (validateRequest sampleKeys 100 ⟨[]⟩ "POST" "/requests"
        (sampleInput "n1").headers []).2.pairs =
        (headerValue (sampleInput "n1").headers HeaderKeyID,
         headerValue (sampleInput "n1").headers HeaderNonce) :: []) ∧
    inputPair (sampleInput "n1") ≠ inputPair (sampleInput "n2") := by
  refine ⟨?_, ?_, ?_⟩
  · exact nonce_observed_at_most_once.1 sampleKeys 100 ⟨[("k1", "n1")]⟩
      "POST" "/requests" (sampleInput "n1").headers [] (by decide)
  · exact nonce_observed_at_most_once.2.1 sampleKeys 100 ⟨[]⟩
      "POST" "/requests" (sampleInput "n1").headers []
      (by rw [sample_validate_one])
  · exact nonce_observed_at_most_once.2.2 sampleKeys 100
      [sampleInput "n1", sampleInput "n2"] ⟨[]⟩ 0 1
      (sampleInput "n1") (sampleInput "n2") (by decide)
      (by rw [sample_trace_results]; rfl) (by rw [sample_trace_results]; rfl)
      rfl rfl

theorem computeHMAC_length (secret message : String) :
    (computeHMAC secret message).length = 64 := by
  simp [computeHMAC, hexEncode_length, hmacSha256_length]

theorem computeHMAC_ne_empty (secret message : String) :
    computeHMAC secret message ≠ "" := by
  intro h
  have h64 := computeHMAC_length secret message
  rw [h] at h64
  exact absurd h64 (by decide)

/-- C5: (a) a request signed by `SignPayload` under any `(key_id, secret)`
pair of the validator's configured key set validates successfully — whatever
key id the signer presents, and in particular when the presented key id maps
to a different secret — given presented headers, a fresh timestamp and an
unused nonce; (b) under those same conditions validation succeeds exactly
when some currently configured secret yields the presented signature, so
once a key is removed from the set, a request whose signature matches no
remaining secret (one signed only with the removed key) no longer
validates. -/
theorem key_rotation_validation :
    (∀ (keys : List (String × String)) (now : Int) (st : NonceState)
        (kid kid0 sec t n m p : String) (b : List Nat) (ts : Int),
      (kid0, sec) ∈ keys →
      kid ≠ "" → t ≠ "" → n ≠ "" →
      parseInt64 t = some ts →
      (if now - ts < 0 then ts - now else now - ts) ≤
        maxTimestampSkewSeconds →
      st.pairs.contains (kid, n) = false →
      (validateRequest keys now st m p (signPayload kid sec t n m p b) b).1 =
        .ok ()) ∧
    (∀ (keys : List (String × String)) (now : Int) (st : NonceState)
        (m p : String) (hs : List (String × String)) (b : List Nat) (ts : Int),
      headerValue hs HeaderKeyID ≠ "" →
      headerValue hs HeaderTimestamp ≠ "" →
      headerValue hs HeaderNonce ≠ "" →
      headerValue hs HeaderSignature ≠ "" →
      parseInt64 (headerValue hs HeaderTimestamp) = some ts →
      (if now - ts < 0 then ts - now else now - ts) ≤
        maxTimestampSkewSeconds →
      st.pairs.contains
        (headerValue hs HeaderKeyID, headerValue hs HeaderNonce) = false →
      ((validateRequest keys now st m p hs b).1 = .ok () ↔
        (keys.any (fun ks => computeHMAC ks.2
            (buildSigningMessage (headerValue hs HeaderTimestamp)
              (headerValue hs HeaderNonce) m p b) ==
          headerValue hs HeaderSignature)) = true)) := by
  constructor
  · intro keys now st kid kid0 sec t n m p b ts hmem hkid ht hn hts hskew hnon
    have heq := validateRequest_ok_of keys now st m p
      (signPayload kid sec t n m p b) b ts hkid ht hn
      (computeHMAC_ne_empty sec (buildSigningMessage t n m p b)) hts hskew hnon
      (List.any_eq_true.mpr ⟨(kid0, sec), hmem, beq_self_eq_true
        (computeHMAC sec (buildSigningMessage t n m p b))⟩)
    rw [heq]
  · intro keys now st m p hs b ts h1 h2 h3 h4 hts hskew hnon
    constructor
    · intro hok
      exact (validateRequest_ok_conditions keys now st m p hs b
        hok).2.2.2.2.2.2
    · intro hmatch
      rw [validateRequest_ok_of keys now st m p hs b ts h1 h2 h3 h4 hts hskew
        hnon hmatch]

/-- Witness for `key_rotation_validation`: with keys `kOld` and `kNew` both
configured, a request presenting key id `kNew` but signed with `kOld`'s
secret still validates; and with only `kNew` remaining, a request signed
with the removed `kOld` secret validates exactly when some remaining secret
reproduces its signature. -/
theorem key_rotation_validation_witness :
    ((validateRequest [("kOld", "sOld"), ("kNew", "sNew")] 100 ⟨[]⟩
        "POST" "/requests"
        (signPayload "kNew" "sOld" "100" "n1" "POST" "/requests" []) []).1 =
      .ok ()) ∧
    (((validateRequest [("kNew", "sNew")] 100 ⟨[]⟩ "POST" "/requests"
        (signPayload "kOld" "sOld" "100" "n1" "POST" "/requests" []) []).1 =
      .ok ()) ↔
      ([("kNew", "sNew")].any (fun ks => computeHMAC ks.2
          (buildSigningMessage
            (headerValue
              (signPayload "kOld" "sOld" "100" "n1" "POST" "/requests" [])
              HeaderTimestamp)
            (headerValue
              (signPayload "kOld" "sOld" "100" "n1" "POST" "/requests" [])
              HeaderNonce) "POST" "/requests" []) ==
        headerValue
          (signPayload "kOld" "sOld" "100" "n1" "POST" "/requests" [])
          HeaderSignature)) = true) := by
  constructor
  · exact key_rotation_validation.1 [("kOld", "sOld"), ("kNew", "sNew")] 100
      ⟨[]⟩ "kNew" "kOld" "sOld" "100" "n1" "POST" "/requests" [] 100
      (by decide) (by decide) (by decide) (by decide) (by decide) (by decide)
      (by decide)
  · exact key_rotation_validation.2 [("kNew", "sNew")] 100 ⟨[]⟩
      "POST" "/requests"
      (signPayload "kOld" "sOld" "100" "n1" "POST" "/requests" []) [] 100
      (by decide) (by decide) (by decide)
      (computeHMAC_ne_empty "sOld"
        (buildSigningMessage "100" "n1" "POST" "/requests" []))
      (by decide) (by decide) (by decide)

/-- C10: a failed validation leaves the nonce store untouched — the nonce is
not consumed; a successful one consumes it, and only after every other step
(header presence, timestamp freshness, nonce absence, signature match) has
succeeded; and after any failed validation, a later request presenting the
very same `(key_id, nonce)` pair still validates when it meets all the
checks. -/
theorem nonce_not_consumed_on_failure :
    (∀ (keys : List (String × String)) (now : Int) (st : NonceState)
        (m p : String) (hs : List (String × String)) (b : List Nat)
        (e : String),
      (validateRequest keys now st m p hs b).1 = .error e →
      (validateRequest keys now st m p hs b).2 = st) ∧
    (∀ (keys : List (String × String)) (now : Int) (st : NonceState)
        (m p : String) (hs : List (String × String)) (b : List Nat),
      (validateRequest keys now st m p hs b).1 = .ok () →
      (validateRequest keys now st m p hs b).2.pairs =
        (headerValue hs HeaderKeyID, headerValue hs HeaderNonce) ::
          st.pairs ∧
      headerValue hs HeaderKeyID ≠ "" ∧
      headerValue hs HeaderTimestamp ≠ "" ∧
      headerValue hs HeaderNonce ≠ "" ∧
      headerValue hs HeaderSignature ≠ "" ∧
      (∃ ts, parseInt64 (headerValue hs HeaderTimestamp) = some ts ∧
        (if now - ts < 0 then ts - now else now - ts) ≤
          maxTimestampSkewSeconds) ∧
      st.pairs.contains
        (headerValue hs HeaderKeyID, headerValue hs HeaderNonce) = false ∧
      (keys.any (fun ks => computeHMAC ks.2
          (buildSigningMessage (headerValue hs HeaderTimestamp)
            (headerValue hs HeaderNonce) m p b) ==
        headerValue hs HeaderSignature)) = true) ∧
    (∀ (keys : List (String × String)) (now now2 : Int) (st : NonceState)
        (m p m2 p2 : String) (hs hs2 : List (String × String))
        (b b2 : List Nat) (e : String) (ts2 : Int),
      (validateRequest keys now st m p hs b).1 = .error e →
      (headerValue hs2 HeaderKeyID, headerValue hs2 HeaderNonce) =
        (headerValue hs HeaderKeyID, headerValue hs HeaderNonce) →
      headerValue hs2 HeaderKeyID ≠ "" →
      headerValue hs2 HeaderTimestamp ≠ "" →
      headerValue hs2 HeaderNonce ≠ "" →
      headerValue hs2 HeaderSignature ≠ "" →
      parseInt64 (headerValue hs2 HeaderTimestamp) = some ts2 →
      (if now2 - ts2 < 0 then ts2 - now2 else now2 - ts2) ≤
        maxTimestampSkewSeconds →
      st.pairs.contains
        (headerValue hs2 HeaderKeyID, headerValue hs2 HeaderNonce) = false →
      (keys.any (fun ks => computeHMAC ks.2
          (buildSigningMessage (headerValue hs2 HeaderTimestamp)
            (headerValue hs2 HeaderNonce) m2 p2 b2) ==
        headerValue hs2 HeaderSignature)) = true →
      (validateRequest keys now2 ((validateRequest keys now st m p hs b).2)
        m2 p2 hs2 b2).1 = .ok ()) := by
  have herrst : ∀ (keys : List (String × String)) (now : Int)
      (st : NonceState) (m p : String) (hs : List (String × String))
      (b : List Nat) (e : String),
      (validateRequest keys now st m p hs b).1 = .error e →
      (validateRequest keys now st m p hs b).2 = st := by
    intro keys now st m p hs b e herr
    rcases validateRequest_shape keys now st m p hs b with ⟨e2, heq⟩ | ⟨heq, -⟩
    · rw [heq]
    · rw [heq] at herr; simp at herr
  refine ⟨herrst, ?_, ?_⟩
  · intro keys now st m p hs b hok
    have hc := validateRequest_ok_conditions keys now st m p hs b hok
    rcases validateRequest_shape keys now st m p hs b with ⟨e, heq⟩ | ⟨heq, -⟩
    · rw [heq] at hok; simp at hok
    · rw [heq]
      exact ⟨rfl, hc.1, hc.2.1, hc.2.2.1, hc.2.2.2.1, hc.2.2.2.2.1,
        hc.2.2.2.2.2.1, hc.2.2.2.2.2.2⟩
  · intro keys now now2 st m p m2 p2 hs hs2 b b2 e ts2 herr hpair h1 h2 h3 h4
      hts2 hskew2 hnon2 hmatch2
    rw [herrst keys now st m p hs b e herr]
    rw [validateRequest_ok_of keys now2 st m2 p2 hs2 b2 ts2 h1 h2 h3 h4 hts2
      hskew2 hnon2 hmatch2]

/-- Witness for `nonce_not_consumed_on_failure`: a request rejected for a
stale timestamp leaves the store unchanged; a successful validation records
its pair after all checks; and the nonce of the stale-timestamp request is
then used successfully by a properly signed later request. -/
theorem nonce_not_consumed_on_failure_witness :
    ((validateRequest sampleKeys 1000 ⟨[]⟩ "POST" "/requests"
        [(HeaderKeyID, "k1"), (HeaderTimestamp, "1"), (HeaderNonce, "n1"),
         (HeaderSignature, "x")] []).2 = ⟨[]⟩) ∧
    ((validateRequest sampleKeys 100 ⟨[]⟩ "POST" "/requests"
        (sampleInput "n1").headers []).2.pairs =
      (headerValue (sampleInput "n1").headers HeaderKeyID,
       headerValue (sampleInput "n1").headers HeaderNonce) :: []) ∧
    ((validateRequest sampleKeys 1000
        ((validateRequest sampleKeys 1000 ⟨[]⟩ "POST" "/requests"
          [(HeaderKeyID, "k1"), (HeaderTimestamp, "1"), (HeaderNonce, "n1"),
           (HeaderSignature, "x")] []).2)
        "POST" "/requests"
        (signPayload "k1" "s1" "900" "n1" "POST" "/requests" []) []).1 =
      .ok ()) := by
  refine ⟨?_, ?_, ?_⟩
  · exact nonce_not_consumed_on_failure.1 sampleKeys 1000 ⟨[]⟩
      "POST" "/requests"
      [(HeaderKeyID, "k1"), (HeaderTimestamp, "1"), (HeaderNonce, "n1"),
       (HeaderSignature, "x")] [] "timestamp outside allowed skew" rfl
  · exact (nonce_not_consumed_on_failure.2.1 sampleKeys 100 ⟨[]⟩
      "POST" "/requests" (sampleInput "n1").headers []
      (by rw [sample_validate_one])).1
  · exact nonce_not_consumed_on_failure.2.2 sampleKeys 1000 1000 ⟨[]⟩
      "POST" "/requests" "POST" "/requests"
      [(HeaderKeyID, "k1"), (HeaderTimestamp, "1"), (HeaderNonce, "n1"),
       (HeaderSignature, "x")]
      (signPayload "k1" "s1" "900" "n1" "POST" "/requests" []) [] []
      "timestamp outside allowed skew" 900 rfl (by decide) (by decide)
      (by decide) (by decide)
      (computeHMAC_ne_empty "s1"
        (buildSigningMessage "900" "n1" "POST" "/requests" []))
      (by decide) (by decide) (by decide)
      (List.any_eq_true.mpr ⟨("k1", "s1"), by decide, beq_self_eq_true
        (computeHMAC "s1"
          (buildSigningMessage "900" "n1" "POST" "/requests" []))⟩)

/-! ## Claim C1: approve/deny after the binding is deleted -/

/-- A world holding one PENDING request for `(ch1, acct1)` whose binding has
been deleted: the config table is empty. -/
def bindingDeletedWorld : World :=
  { db := { configs := []
            requests := [{ requestID := "req-1"
                           accountID := "acct1"
                           channelID := "ch1"
                           requesterMMUserID := "u-req"
                           requesterEmail := "req@example.com"
                           jira := "J-1"
                           requestedDurationMinutes := 60
                           status := StatusPending
                           createdAt := "T0"
                           endTime := "T9"
                           identityStoreUserID := "uid-1" }] } }

/-- A benign environment for exercising the handlers. -/
def plainEnv : Env :=
  { lookupUserByEmail := fun _ => .ok "uid-1"
    revokeAccess := fun _ _ => .ok ()
    now := "T1"
    endTime := "T2"
    freshID := "fresh-1" }

/-- C1 (the code at the claim's failing input): with the `(ch1, acct1)`
binding deleted, approving the PENDING request as the arbitrary, never
authorized user `mallory` does not fail — the Go handlers skip the approver
and self-approval checks entirely when the config lookup returns nil, so the
approve succeeds and moves the request to APPROVED (and the deny likewise to
DENIED), where the spec requires a not-authorized failure that leaves the
request PENDING. -/
theorem approve_deny_without_binding_fail_open :
    getConfig bindingDeletedWorld.db "ch1" "acct1" = none ∧
    (handleApproveRequest plainEnv bindingDeletedWorld
      ⟨"req-1", "mallory", "mallory@example.com"⟩).1 =
      .ok { requestID := "req-1"
            accountID := "acct1"
            channelID := "ch1"
            requesterMMUserID := "u-req"
            requesterEmail := "req@example.com"
            jira := "J-1"
            requestedDurationMinutes := 60
            status := StatusApproved
            createdAt := "T0"
            approvedAt := "T1"
            endTime := "T9"
            approverMMUserID := "mallory"
            approverEmail := "mallory@example.com"
            identityStoreUserID := "uid-1" } ∧
    (getRequest (handleApproveRequest plainEnv bindingDeletedWorld
        ⟨"req-1", "mallory", "mallory@example.com"⟩).2.db "req-1").map
      (fun r => r.status) = some StatusApproved ∧
    (getRequest (handleDenyRequest plainEnv bindingDeletedWorld
        ⟨"req-1", "mallory", "mallory@example.com"⟩).2.db "req-1").map
      (fun r => r.status) = some StatusDenied := by
  exact ⟨rfl, rfl, rfl, rfl⟩

/-! ## Claim C2: manual revoke on a REVOKED or EXPIRED request -/

/-- A world holding one request already in the given terminal status. -/
def terminalWorld (status : String) : World :=
  { db := { configs := []
            requests := [{ requestID := "req-1"
                           accountID := "acct1"
                           channelID := "ch1"
                           requesterMMUserID := "u-req"
                           requesterEmail := "req@example.com"
                           status := status
                           identityStoreUserID := "uid-1" }] } }

/-- C2 counterexample: invoking the manual revoke handler on a request whose
stored status is REVOKED does not return success — it returns the
status-guard error, because `HandleRevokeRequest` requires status GRANTED. -/
theorem manual_revoke_on_revoked_returns_error :
    (handleRevokeRequest plainEnv (terminalWorld StatusRevoked)
      ⟨"req-1", "admin", "admin@example.com"⟩).1 =
      .error "request req-1 is in status REVOKED, expected GRANTED" := rfl

/-- C2 as amended: invoking the manual revoke handler on a request whose
stored status is REVOKED or EXPIRED returns the status-conflict error (not
success), emits no second REVOKED audit event, and leaves the entire state
unchanged. -/
theorem manual_revoke_terminal_is_error_noop (env : Env) (w : World)
    (input : RevokeRequestInput) (r : JitRequest)
    (hid : input.requestID ≠ "")
    (hactor : input.actorMMUserID ≠ "") (hemail : input.actorEmail ≠ "")
    (hget : getRequest w.db input.requestID = some r)
    (hstatus : r.status = StatusRevoked ∨ r.status = StatusExpired) :
    (handleRevokeRequest env w input).1 =
      .error ("request " ++ input.requestID ++ " is in status " ++ r.status ++
              ", expected GRANTED") ∧
    (handleRevokeRequest env w input).2 = w := by
  have hne : r.status ≠ StatusGranted := by
    rcases hstatus with h | h <;> rw [h] <;> decide
  simp only [handleRevokeRequest]
  rw [if_neg hid, if_neg (by push_neg; exact ⟨hactor, hemail⟩), hget]
  dsimp only
  rw [if_pos hne]
  exact ⟨rfl, rfl⟩

/-- Witness for `manual_revoke_terminal_is_error_noop` on an EXPIRED
request. -/
theorem manual_revoke_terminal_is_error_noop_witness :
    (handleRevokeRequest plainEnv (terminalWorld StatusExpired)
      ⟨"req-1", "admin", "admin@example.com"⟩).1 =
      .error "request req-1 is in status EXPIRED, expected GRANTED" ∧
    (handleRevokeRequest plainEnv (terminalWorld StatusExpired)
      ⟨"req-1", "admin", "admin@example.com"⟩).2 =
      terminalWorld StatusExpired :=
  manual_revoke_terminal_is_error_noop plainEnv (terminalWorld StatusExpired)
    ⟨"req-1", "admin", "admin@example.com"⟩
    { requestID := "req-1"
      accountID := "acct1"
      channelID := "ch1"
      requesterMMUserID := "u-req"
      requesterEmail := "req@example.com"
      status := StatusExpired
      identityStoreUserID := "uid-1" }
    (by decide) (by decide) (by decide) rfl (Or.inr rfl)

/-! ## Claim C6: create-request validation -/

/-- A world holding a single `(ch1, acct1)` binding with the given
`max_request_hours` and no requests. -/
def oneBindingWorld (maxHours : Int) : World :=
  { db := { configs := [{ channelID := "ch1"
                          accountID := "acct1"
                          approverMMUserIDs := ["u-app"]
                          approvalPolicy := "one_of_n"
                          maxRequestHours := maxHours
                          updatedAt := "T0" }]
            requests := [] } }

/-- A well-formed create input for `(ch1, acct1)` with the given duration. -/
def createInput (minutes : Int) : CreateRequestInput :=
  { accountID := "acct1"
    channelID := "ch1"
    requesterMMUserID := "u-req"
    requesterEmail := "req@example.com"
    jira := "J-1"
    requestedDurationMinutes := minutes }

/-- C6 counterexample: with a binding whose `max_request_hours` is `0`, a
request for 60 minutes exceeds `max_request_hours × 60 = 0`, yet creation
succeeds and persists a PENDING request — the Go code enforces the cap only
when `maxMinutes > 0`. -/
theorem create_over_limit_succeeds_when_max_zero :
    (0 : Int) * 60 < (createInput 60).requestedDurationMinutes ∧
    (getRequest (handleCreateRequest plainEnv (oneBindingWorld 0)
        (createInput 60)).2.db "fresh-1").map (fun r => r.status) =
      some StatusPending ∧
    (handleCreateRequest plainEnv (oneBindingWorld 0)
        (createInput 60)).2.audits.length = 1 := by
  exact ⟨by decide, rfl, rfl⟩

/-- C6 as amended: creation fails with a validation error, persists no
request row and emits no audit event whenever the binding is missing, or
whenever the binding's cap `max_request_hours × 60` is positive and the
requested duration exceeds it (a non-positive cap disables duration
enforcement). -/
theorem create_validation_rejects_unchanged (env : Env) (w : World)
    (input : CreateRequestInput) :
    (getConfig w.db input.channelID input.accountID = none →
      (∃ e, (handleCreateRequest env w input).1 = .error e) ∧
      (handleCreateRequest env w input).2 = w) ∧
    (∀ cfg, getConfig w.db input.channelID input.accountID = some cfg →
      0 < cfg.maxRequestHours * 60 →
      cfg.maxRequestHours * 60 < input.requestedDurationMinutes →
      (∃ e, (handleCreateRequest env w input).1 = .error e) ∧
      (handleCreateRequest env w input).2 = w) := by
  constructor
  · intro hcfg
    simp only [handleCreateRequest, hcfg]
    split
    · exact ⟨⟨_, rfl⟩, rfl⟩
    · split
      · exact ⟨⟨_, rfl⟩, rfl⟩
      · split
        · exact ⟨⟨_, rfl⟩, rfl⟩
        · split
          · exact ⟨⟨_, rfl⟩, rfl⟩
          · exact ⟨⟨_, rfl⟩, rfl⟩
  · intro cfg hcfg hpos hover
    simp only [handleCreateRequest, hcfg]
    split
    · exact ⟨⟨_, rfl⟩, rfl⟩
    · split
      · exact ⟨⟨_, rfl⟩, rfl⟩
      · split
        · exact ⟨⟨_, rfl⟩, rfl⟩
        · split
          · exact ⟨⟨_, rfl⟩, rfl⟩
          · rw [if_pos ⟨hpos, hover⟩]
            exact ⟨⟨_, rfl⟩, rfl⟩

/-- Witness for `create_validation_rejects_unchanged`: creation against a
world with no binding fails and changes nothing, and a 120-minute request
against a 1-hour binding fails and changes nothing. -/
theorem create_validation_rejects_unchanged_witness :
    ((∃ e, (handleCreateRequest plainEnv bindingDeletedWorld
        (createInput 60)).1 = .error e) ∧
      (handleCreateRequest plainEnv bindingDeletedWorld
        (createInput 60)).2 = bindingDeletedWorld) ∧
    ((∃ e, (handleCreateRequest plainEnv (oneBindingWorld 1)
        (createInput 120)).1 = .error e) ∧
      (handleCreateRequest plainEnv (oneBindingWorld 1)
        (createInput 120)).2 = oneBindingWorld 1) :=
  ⟨(create_validation_rejects_unchanged plainEnv bindingDeletedWorld
      (createInput 60)).1 rfl,
   (create_validation_rejects_unchanged plainEnv (oneBindingWorld 1)
      (createInput 120)).2 _ rfl (by decide) (by decide)⟩

/-! ## Claim C9: account-uniqueness of bindings -/

/-- Invariant U-1: an `account_id` is bound to at most one `channel_id` —
any two configs carrying the same account carry the same channel. -/
def accountUniqueness (db : DB) : Prop :=
  ∀ c1 ∈ db.configs, ∀ c2 ∈ db.configs,
    c1.accountID = c2.accountID → c1.channelID = c2.channelID

/-- `PutConfig` preserves U-1 when every stored config on the new config's
account already carries its channel. -/
theorem putConfig_preserves_uniqueness (db : DB) (cfg : JitConfig)
    (huniq : accountUniqueness db)
    (hsame : ∀ c ∈ db.configs, c.accountID = cfg.accountID →
      c.channelID = cfg.channelID) :
    accountUniqueness (putConfig db cfg) := by
  intro c1 h1 c2 h2 hacct
  simp only [putConfig, List.mem_append, List.mem_filter,
    List.mem_singleton] at h1 h2
  rcases h1 with ⟨h1m, -⟩ | h1e <;> rcases h2 with ⟨h2m, -⟩ | h2e
  · exact huniq c1 h1m c2 h2m hacct
  · subst h2e; exact hsame c1 h1m hacct
  · subst h1e; exact (hsame c2 h2m hacct.symm).symm
  · subst h1e; subst h2e; rfl

/-- The config `bindPut` writes is keyed by the bind input. -/
theorem bindPut_key (env : Env) (w : World) (input : BindAccountInput) :
    ∃ cfg : JitConfig, cfg.channelID = input.channelID ∧
      cfg.accountID = input.accountID ∧
      (bindPut env w input).2 = { w with db := putConfig w.db cfg } := by
  simp only [bindPut]
  cases getConfig w.db input.channelID input.accountID with
  | none => exact ⟨_, rfl, rfl, rfl⟩
  | some ec => exact ⟨_, rfl, rfl, rfl⟩

/-- C9: the bind operation preserves account uniqueness.  When the input
account is already bound to a different channel, the bind fails with that
error and writes nothing; in every case, if U-1 held before the bind it
holds after, so an `account_id` stays bound to at most one `channel_id`. -/
theorem bind_preserves_account_uniqueness (env : Env) (w : World)
    (input : BindAccountInput) (huniq : accountUniqueness w.db) :
    accountUniqueness (handleBindAccount env w input).2.db ∧
    (∀ ex, input.channelID ≠ "" → input.accountID ≠ "" →
      getChannelForAccount w.db input.accountID = some ex →
      ex.channelID ≠ input.channelID →
      (handleBindAccount env w input).1 =
        .error ("account " ++ input.accountID ++
                " is already bound to channel " ++ ex.channelID) ∧
      (handleBindAccount env w input).2 = w) := by
  have hput : ∀ (hsame : ∀ c ∈ w.db.configs, c.accountID = input.accountID →
      c.channelID = input.channelID),
      accountUniqueness (bindPut env w input).2.db := by
    intro hsame
    obtain ⟨cfg, hch, hacct, heq⟩ := bindPut_key env w input
    rw [heq]
    exact putConfig_preserves_uniqueness w.db cfg huniq
      (fun c hc h => by rw [hch]; exact hsame c hc (by rw [← hacct]; exact h))
  constructor
  · simp only [handleBindAccount]
    split
    · exact huniq
    · split
      · rename_i ex hex
        split
        · exact huniq
        · rename_i hch
          refine hput ?_
          intro c hc hacct2
          have hexmem := List.mem_of_find?_eq_some hex
          have hexacct : ex.accountID = input.accountID := by
            have := List.find?_some hex
            simpa using this
          have hcch : c.channelID = ex.channelID :=
            huniq c hc ex hexmem (by rw [hacct2, hexacct])
          rw [hcch]
          simpa using hch
      · rename_i hnone
        refine hput ?_
        intro c hc hacct2
        have := List.find?_eq_none.mp hnone c hc
        simp at this
        exact absurd hacct2 this
  · intro ex hch0 hacct0 hex hne
    simp only [handleBindAccount]
    rw [if_neg (by push_neg; exact ⟨hch0, hacct0⟩), hex]
    dsimp only
    rw [if_pos hne]
    exact ⟨rfl, rfl⟩

/-- Witness for `bind_preserves_account_uniqueness`: binding `acct1` (already
bound to `chA`) to `chB` fails, writes nothing, and uniqueness is
preserved. -/
theorem bind_preserves_account_uniqueness_witness :
    accountUniqueness (handleBindAccount plainEnv (oneBindingWorld 4)
      ⟨"chB", "acct1"⟩).2.db ∧
    ((handleBindAccount plainEnv (oneBindingWorld 4) ⟨"chB", "acct1"⟩).1 =
      .error "account acct1 is already bound to channel ch1" ∧
     (handleBindAccount plainEnv (oneBindingWorld 4) ⟨"chB", "acct1"⟩).2 =
      oneBindingWorld 4) := by
  have huniq : accountUniqueness (oneBindingWorld 4).db := by
    intro c1 h1 c2 h2 hacct
    simp only [oneBindingWorld, List.mem_singleton] at h1 h2
    rw [h1, h2]
  have h := bind_preserves_account_uniqueness plainEnv (oneBindingWorld 4)
    ⟨"chB", "acct1"⟩ huniq
  exact ⟨h.1, h.2 { channelID := "ch1"
                    accountID := "acct1"
                    approverMMUserIDs := ["u-app"]
                    approvalPolicy := "one_of_n"
                    maxRequestHours := 4
                    updatedAt := "T0" }
    (by decide) (by decide) rfl (by decide)⟩

/-! ## Conditional-update characterization -/

/-- Whatever the outcome of the condition, a conditional update fails with
the conflict error whenever the stored status (if any) differs from the
expected one. -/
theorem conditionalUpdateStatus_fails (db : DB) (rid expectedStatus : String)
    (f : JitRequest → JitRequest)
    (h : ∀ r, getRequest db rid = some r → r.status ≠ expectedStatus) :
    conditionalUpdateStatus db rid expectedStatus f =
      .error "conditional check failed" := by
  simp only [conditionalUpdateStatus]
  cases hf : db.requests.find? (fun r => r.requestID == rid) with
  | none => rfl
  | some r =>
    dsimp only
    rw [if_neg (show ¬(r.status == expectedStatus) = true by
      simp only [beq_iff_eq]; exact h r hf)]

/-- The requests table after a conditional update, seen through point
lookups: the updated row under its own key, everything else unchanged —
provided the update map does not touch the key (none in this code does). -/
theorem find?_update_map (l : List JitRequest) (rid : String)
    (f : JitRequest → JitRequest)
    (hf : ∀ q, (f q).requestID = q.requestID) (rid2 : String) :
    (l.map (fun q => if q.requestID == rid then f q else q)).find?
        (fun q => q.requestID == rid2) =
      if rid2 = rid then (l.find? (fun q => q.requestID == rid)).map f
      else l.find? (fun q => q.requestID == rid2) := by
  induction l with
  | nil =>
    simp only [List.map_nil, List.find?_nil]
    split <;> rfl
  | cons q rest ih =>
    rw [List.map_cons]
    by_cases hqr : q.requestID = rid
    · rw [if_pos (by simpa using hqr)]
      by_cases h2 : rid2 = rid
      · subst h2
        rw [List.find?_cons_of_pos _ (by simp [hf q, hqr])]
        rw [if_pos rfl, List.find?_cons_of_pos _ (by simpa using hqr)]
        rfl
      · rw [List.find?_cons_of_neg _ (by
          simp only [hf q, hqr, beq_iff_eq]
          exact fun h => h2 h.symm)]
        rw [ih, if_neg h2, if_neg h2]
        rw [List.find?_cons_of_neg _ (by
          simp only [hqr, beq_iff_eq]
          exact fun h => h2 h.symm)]
    · rw [if_neg (by simpa using hqr)]
      by_cases h3 : q.requestID = rid2
      · have h2 : ¬rid2 = rid := fun h => hqr (by rw [h3, h])
        rw [List.find?_cons_of_pos _ (by simpa using h3)]
        rw [if_neg h2, List.find?_cons_of_pos _ (by simpa using h3)]
      · rw [List.find?_cons_of_neg _ (by simpa using h3), ih]
        by_cases h2 : rid2 = rid
        · rw [if_pos h2, if_pos h2,
            List.find?_cons_of_neg _ (by simpa using hqr)]
        · rw [if_neg h2, if_neg h2,
            List.find?_cons_of_neg _ (by simpa using h3)]

/-- A conditional update whose stored status matches the expectation
succeeds; the result holds the updated row under its key and is untouched
elsewhere. -/
theorem conditionalUpdateStatus_ok (db : DB) (rid expectedStatus : String)
    (f : JitRequest → JitRequest)
    (hf : ∀ q, (f q).requestID = q.requestID)
    (stored : JitRequest) (hget : getRequest db rid = some stored)
    (hst : stored.status = expectedStatus) :
    ∃ db2, conditionalUpdateStatus db rid expectedStatus f = .ok db2 ∧
      db2.configs = db.configs ∧
      (∀ rid2, getRequest db2 rid2 =
        if rid2 = rid then some (f stored) else getRequest db rid2) := by
  simp only [conditionalUpdateStatus]
  rw [show db.requests.find? (fun r => r.requestID == rid) = some stored
    from hget]
  dsimp only
  rw [if_pos (by simp [hst])]
  refine ⟨_, rfl, rfl, ?_⟩
  intro rid2
  simp only [getRequest]
  rw [find?_update_map db.requests rid f hf rid2]
  rw [show db.requests.find? (fun q => q.requestID == rid) = some stored
    from hget]
  split <;> rfl

/-! ## Claim C8: automatic expiration short-circuit and conflict swallow -/

/-- C8: (a) the orchestrator revoke action short-circuits with success and
leaves everything untouched — no identity call, no audit, no state change —
when the request is already REVOKED or EXPIRED; (b) when it is in any other
non-GRANTED state and the identity revoke succeeds, the GRANTED→EXPIRED
conflict is swallowed: the action returns success (`already_handled`) with
no EXPIRED audit and no state change beyond recording the identity call;
(c) the reconciler sweep behaves the same: when the stored status is no
longer GRANTED and the identity revoke succeeds, `revokeExpired` returns
success and emits no EXPIRED audit, no webhook, and no store change. -/
theorem auto_expiration_conflict_swallowed :
    (∀ (env : Env) (w : World) (rid : String) (r : JitRequest),
      getRequest w.db rid = some r →
      r.status = StatusRevoked ∨ r.status = StatusExpired →
      handleRevoke env w rid =
        (.ok ⟨r.status, rid, "already revoked or expired"⟩, w)) ∧
    (∀ (env : Env) (w : World) (rid : String) (r : JitRequest),
      getRequest w.db rid = some r →
      ¬(r.status = StatusRevoked ∨ r.status = StatusExpired) →
      r.status ≠ StatusGranted →
      env.revokeAccess r.accountID r.identityStoreUserID = .ok () →
      handleRevoke env w rid =
        (.ok ⟨"already_handled", rid,
              "conditional update failed, likely already revoked"⟩,
         recordRevoke w r.accountID r.identityStoreUserID) ∧
      (recordRevoke w r.accountID r.identityStoreUserID).audits = w.audits ∧
      (recordRevoke w r.accountID r.identityStoreUserID).db = w.db) ∧
    (∀ (env : Env) (w : World) (req : JitRequest),
      (∀ r', getRequest w.db req.requestID = some r' →
        r'.status ≠ StatusGranted) →
      env.revokeAccess req.accountID req.identityStoreUserID = .ok () →
      revokeExpired env w req =
        (.ok (), recordRevoke w req.accountID req.identityStoreUserID) ∧
      (recordRevoke w req.accountID req.identityStoreUserID).audits =
        w.audits ∧
      (recordRevoke w req.accountID req.identityStoreUserID).webhooks =
        w.webhooks ∧
      (recordRevoke w req.accountID req.identityStoreUserID).db = w.db) := by
  refine ⟨?_, ?_, ?_⟩
  · intro env w rid r hget hterm
    simp only [handleRevoke]
    rw [hget]
    dsimp only
    rw [if_pos hterm]
  · intro env w rid r hget hterm hne hrev
    simp only [handleRevoke]
    rw [hget]
    dsimp only
    rw [if_neg hterm, hrev]
    dsimp only
    rw [conditionalUpdateStatus_fails _ _ _ _ (by
      intro r' hg
      rw [show getRequest (recordRevoke w r.accountID r.identityStoreUserID).db
        rid = getRequest w.db rid from rfl, hget] at hg
      rw [← Option.some.inj hg]
      exact hne)]
    exact ⟨rfl, rfl, rfl⟩
  · intro env w req hstored hrev
    simp only [revokeExpired]
    rw [hrev]
    dsimp only
    rw [conditionalUpdateStatus_fails _ _ _ _ (by
      intro r' hg
      exact hstored r' hg)]
    exact ⟨rfl, rfl, rfl, rfl⟩

/-- The GRANTED snapshot of `req-1`, as the reconciler query would have
returned it before a racing manual revoke changed the stored row. -/
def grantedSnapshot : JitRequest :=
  { requestID := "req-1"
    accountID := "acct1"
    channelID := "ch1"
    requesterMMUserID := "u-req"
    requesterEmail := "req@example.com"
    status := StatusGranted
    identityStoreUserID := "uid-1" }

/-- Witness for `auto_expiration_conflict_swallowed`: the orchestrator
action on an already-REVOKED request short-circuits; on an APPROVED request
with a successful identity revoke it returns `already_handled` without
state change; and the reconciler's `revokeExpired` on a snapshot whose
stored row has meanwhile become REVOKED succeeds with no audit, webhook or
store change. -/
theorem auto_expiration_conflict_swallowed_witness :
    (handleRevoke plainEnv (terminalWorld StatusRevoked) "req-1" =
      (.ok ⟨StatusRevoked, "req-1", "already revoked or expired"⟩,
       terminalWorld StatusRevoked)) ∧
    (handleRevoke plainEnv (terminalWorld StatusApproved) "req-1" =
      (.ok ⟨"already_handled", "req-1",
            "conditional update failed, likely already revoked"⟩,
       recordRevoke (terminalWorld StatusApproved) "acct1" "uid-1")) ∧
    (revokeExpired plainEnv (terminalWorld StatusRevoked) grantedSnapshot =
      (.ok (), recordRevoke (terminalWorld StatusRevoked) "acct1" "uid-1")) := by
  refine ⟨?_, ?_, ?_⟩
  · exact auto_expiration_conflict_swallowed.1 plainEnv
      (terminalWorld StatusRevoked) "req-1"
      { requestID := "req-1"
        accountID := "acct1"
        channelID := "ch1"
        requesterMMUserID := "u-req"
        requesterEmail := "req@example.com"
        status := StatusRevoked
        identityStoreUserID := "uid-1" } rfl (Or.inl rfl)
  · exact (auto_expiration_conflict_swallowed.2.1 plainEnv
      (terminalWorld StatusApproved) "req-1"
      { requestID := "req-1"
        accountID := "acct1"
        channelID := "ch1"
        requesterMMUserID := "u-req"
        requesterEmail := "req@example.com"
        status := StatusApproved
        identityStoreUserID := "uid-1" } rfl (by decide) (by decide) rfl).1
  · exact (auto_expiration_conflict_swallowed.2.2 plainEnv
      (terminalWorld StatusRevoked) grantedSnapshot
      (by
        intro r' h
        rw [show getRequest (terminalWorld StatusRevoked).db
          grantedSnapshot.requestID =
          some { requestID := "req-1"
                 accountID := "acct1"
                 channelID := "ch1"
                 requesterMMUserID := "u-req"
                 requesterEmail := "req@example.com"
                 status := StatusRevoked
                 identityStoreUserID := "uid-1" } from rfl] at h
        rw [← Option.some.inj h]
        decide) rfl).1

/-- A successful conditional update leaves every other request untouched. -/
theorem conditionalUpdateStatus_frame (db : DB) (rid expectedStatus : String)
    (f : JitRequest → JitRequest)
    (hf : ∀ q, (f q).requestID = q.requestID) (db2 : DB)
    (hok : conditionalUpdateStatus db rid expectedStatus f = .ok db2)
    (rid2 : String) (hne : rid2 ≠ rid) :
    getRequest db2 rid2 = getRequest db rid2 := by
  simp only [conditionalUpdateStatus] at hok
  cases hfind : db.requests.find? (fun r => r.requestID == rid) with
  | none => rw [hfind] at hok; exact absurd hok (by simp)
  | some stored =>
    rw [hfind] at hok
    dsimp only at hok
    by_cases hst : (stored.status == expectedStatus) = true
    · rw [if_pos hst] at hok
      cases Except.ok.inj hok
      simp only [getRequest]
      rw [find?_update_map db.requests rid f hf rid2, if_neg hne]
    · rw [if_neg hst] at hok
      exact absurd hok (by simp)

/-- Point lookups through `exceptD` of a conditional update: rows under
other keys are untouched whether the update succeeded or conflicted. -/
theorem getRequest_exceptD_frame (db : DB) (rid1 expectedStatus : String)
    (f : JitRequest → JitRequest) (hf : ∀ q, (f q).requestID = q.requestID)
    (rid2 : String) (hne : rid2 ≠ rid1) :
    getRequest (exceptD (conditionalUpdateStatus db rid1 expectedStatus f) db)
      rid2 = getRequest db rid2 := by
  cases hup : conditionalUpdateStatus db rid1 expectedStatus f with
  | error e => simp [exceptD]
  | ok db2 =>
    simpa [exceptD] using
      conditionalUpdateStatus_frame db rid1 expectedStatus f hf db2 hup
        rid2 hne

/-- The reconciler's per-request step touches no other request's row. -/
theorem revokeExpired_frame (env : Env) (w : World) (req : JitRequest)
    (rid : String) (hne : rid ≠ req.requestID) :
    getRequest (revokeExpired env w req).2.db rid = getRequest w.db rid := by
  simp only [revokeExpired, recordRevoke, auditLog, notifyWebhook]
  cases hrev : env.revokeAccess req.accountID req.identityStoreUserID with
  | error e =>
    dsimp only
    exact getRequest_exceptD_frame w.db req.requestID StatusGranted _
      (by intro q; rfl) rid hne
  | ok u =>
    dsimp only
    split
    · rfl
    · rename_i db2 hup
      exact conditionalUpdateStatus_frame w.db req.requestID StatusGranted _
        (by intro q; rfl) db2 hup rid hne

/-- The reconciler's per-request step only appends audit rows. -/
theorem revokeExpired_audits_mono (env : Env) (w : World) (req : JitRequest) :
    ∀ x ∈ w.audits, x ∈ (revokeExpired env w req).2.audits := by
  intro x hx
  simp only [revokeExpired, recordRevoke, auditLog, notifyWebhook]
  cases hrev : env.revokeAccess req.accountID req.identityStoreUserID with
  | error e => simp [hx]
  | ok u =>
    dsimp only
    split
    · exact hx
    · simp [hx]

/-- The effect of the reconciler's per-request step on a request whose
stored row is still GRANTED: an identity failure conditionally updates it
GRANTED→ERROR with `error_details` and appends an ERROR audit, returning the
failure; an identity success updates it GRANTED→EXPIRED and appends an
EXPIRED audit, returning success. -/
theorem revokeExpired_effect (env : Env) (w : World) (req stored : JitRequest)
    (hget : getRequest w.db req.requestID = some stored)
    (hst : stored.status = StatusGranted) :
    (∀ e, env.revokeAccess req.accountID req.identityStoreUserID = .error e →
      (revokeExpired env w req).1 =
        .error ("revoke access for " ++ req.requestID ++ ": " ++ e) ∧
      getRequest (revokeExpired env w req).2.db req.requestID =
        some { stored with
               status := StatusError
               errorDetails := "reconciler revoke failed: " ++ e } ∧
      (⟨req.requestID, EventError, req.accountID, req.channelID, "",
        "reconciler", [("error", e)]⟩ : AuditRec) ∈
        (revokeExpired env w req).2.audits) ∧
    (env.revokeAccess req.accountID req.identityStoreUserID = .ok () →
      (revokeExpired env w req).1 = .ok () ∧
      getRequest (revokeExpired env w req).2.db req.requestID =
        some { stored with status := StatusExpired, expiredAt := env.now } ∧
      (⟨req.requestID, EventExpired, req.accountID, req.channelID, "",
        "reconciler", []⟩ : AuditRec) ∈
        (revokeExpired env w req).2.audits) := by
  constructor
  · intro e hrev
    simp only [revokeExpired, recordRevoke, auditLog, notifyWebhook, hrev]
    obtain ⟨db2, hok, -, hchar⟩ := conditionalUpdateStatus_ok w.db
      req.requestID StatusGranted
      (fun r => { r with
                  status := StatusError
                  errorDetails := "reconciler revoke failed: " ++ e })
      (by intro q; rfl) stored hget hst
    rw [hok]
    refine ⟨trivial, ?_, by simp⟩
    simp only [exceptD]
    rw [hchar req.requestID, if_pos rfl]
  · intro hrev
    simp only [revokeExpired, recordRevoke, auditLog, notifyWebhook, hrev]
    obtain ⟨db2, hok, -, hchar⟩ := conditionalUpdateStatus_ok w.db
      req.requestID StatusGranted
      (fun r => { r with status := StatusExpired, expiredAt := env.now })
      (by intro q; rfl) stored hget hst
    rw [hok]
    refine ⟨rfl, ?_, by simp⟩
    rw [hchar req.requestID, if_pos rfl]

/-- With distinct request ids, the point lookup of a stored request returns
exactly that request. -/
theorem getRequest_of_mem_nodup (db : DB) (r : JitRequest)
    (hmem : r ∈ db.requests)
    (hnodup : (db.requests.map (fun q => q.requestID)).Nodup) :
    getRequest db r.requestID = some r := by
  simp only [getRequest]
  have h : ∀ (l : List JitRequest), r ∈ l →
      (l.map (fun q => q.requestID)).Nodup →
      l.find? (fun q => q.requestID == r.requestID) = some r := by
    intro l
    induction l with
    | nil => intro h2 _; simp at h2
    | cons q rest ih =>
      intro hmem2 hnodup2
      simp only [List.map_cons, List.nodup_cons] at hnodup2
      rcases List.mem_cons.mp hmem2 with hq | hrest
      · subst hq
        rw [List.find?_cons_of_pos _ (by simp)]
      · rw [List.find?_cons_of_neg _ (by
          simp only [beq_iff_eq]
          intro hq
          exact hnodup2.1
            (hq ▸ List.mem_map_of_mem (fun x => x.requestID) hrest))]
        exact ih hrest hnodup2.2
  exact h db.requests hmem hnodup

/-- Splitting the reconciler loop at a list boundary: the error counts add
and the world threads through. -/
theorem reconcileAll_append (env : Env) :
    ∀ (xs ys : List JitRequest) (w : World),
      reconcileAll env w (xs ++ ys) =
        ((reconcileAll env w xs).1 +
          (reconcileAll env (reconcileAll env w xs).2 ys).1,
         (reconcileAll env (reconcileAll env w xs).2 ys).2) := by
  intro xs
  induction xs with
  | nil => intro ys w; simp [reconcileAll]
  | cons x rest ih =>
    intro ys w
    simp only [List.cons_append, reconcileAll, List.append_eq]
    rw [ih, Nat.add_assoc]

/-- The reconciler loop touches no request outside the processed list. -/
theorem reconcileAll_frame (env : Env) :
    ∀ (l : List JitRequest) (w : World) (rid : String),
      (∀ q ∈ l, q.requestID ≠ rid) →
      getRequest (reconcileAll env w l).2.db rid = getRequest w.db rid := by
  intro l
  induction l with
  | nil => intro w rid _; rfl
  | cons q rest ih =>
    intro w rid hne
    simp only [reconcileAll]
    rw [ih _ rid (fun q2 h2 => hne q2 (List.mem_cons_of_mem q h2))]
    exact revokeExpired_frame env w q rid
      (fun h => hne q (List.mem_cons_self q rest) h.symm)

/-- The reconciler loop only appends audit rows. -/
theorem reconcileAll_audits_mono (env : Env) :
    ∀ (l : List JitRequest) (w : World) (x : AuditRec),
      x ∈ w.audits → x ∈ (reconcileAll env w l).2.audits := by
  intro l
  induction l with
  | nil => intro w x hx; exact hx
  | cons q rest ih =>
    intro w x hx
    simp only [reconcileAll]
    exact ih _ x (revokeExpired_audits_mono env w q x hx)

/-- The effect of one full reconciler pass on any overdue grant `r` (request
ids distinct): if the identity revoke for `r` fails, the pass counts an
error, leaves `r` in ERROR with `error_details`, and the ERROR audit row is
present; if it succeeds, `r` ends EXPIRED with the EXPIRED audit row
present.  Either way the other requests are processed independently. -/
theorem reconcileAll_member_effect (env : Env) (w : World)
    (hnodup : (w.db.requests.map (fun q => q.requestID)).Nodup)
    (r : JitRequest) (hr : r ∈ overdueGrants w.db env.now) :
    (∀ e, env.revokeAccess r.accountID r.identityStoreUserID = .error e →
      0 < (reconcileAll env w (overdueGrants w.db env.now)).1 ∧
      getRequest (reconcileAll env w (overdueGrants w.db env.now)).2.db
        r.requestID =
        some { r with
               status := StatusError
               errorDetails := "reconciler revoke failed: " ++ e } ∧
      (⟨r.requestID, EventError, r.accountID, r.channelID, "", "reconciler",
        [("error", e)]⟩ : AuditRec) ∈
        (reconcileAll env w (overdueGrants w.db env.now)).2.audits) ∧
    (env.revokeAccess r.accountID r.identityStoreUserID = .ok () →
      getRequest (reconcileAll env w (overdueGrants w.db env.now)).2.db
        r.requestID =
        some { r with status := StatusExpired, expiredAt := env.now } ∧
      (⟨r.requestID, EventExpired, r.accountID, r.channelID, "", "reconciler",
        []⟩ : AuditRec) ∈
        (reconcileAll env w (overdueGrants w.db env.now)).2.audits) := by
  obtain ⟨l1, l2, hgs⟩ := List.append_of_mem hr
  have hsub : (overdueGrants w.db env.now).Sublist w.db.requests :=
    List.filter_sublist _
  have hgsnodup :
      (((l1 ++ r :: l2).map (fun q => q.requestID))).Nodup := by
    rw [← hgs]
    exact hnodup.sublist (hsub.map _)
  rw [List.map_append, List.map_cons, List.nodup_append] at hgsnodup
  have hl1 : ∀ q ∈ l1, q.requestID ≠ r.requestID := by
    intro q hq heq
    exact hgsnodup.2.2 (List.mem_map_of_mem _ hq)
      (by rw [heq]; exact List.mem_cons_self _ _)
  have hl2 : ∀ q ∈ l2, q.requestID ≠ r.requestID := by
    intro q hq heq
    exact (List.nodup_cons.mp hgsnodup.2.1).1
      (by rw [← heq]; exact List.mem_map_of_mem _ hq)
  have hmemf := List.mem_filter.mp hr
  have hstat : r.status = StatusGranted := by
    have h2 := hmemf.2
    simp only [Bool.and_eq_true, beq_iff_eq] at h2
    exact h2.1
  have hget0 : getRequest w.db r.requestID = some r :=
    getRequest_of_mem_nodup w.db r hmemf.1 hnodup
  have hgetA : getRequest (reconcileAll env w l1).2.db r.requestID = some r := by
    rw [reconcileAll_frame env l1 w r.requestID
      (fun q hq => hl1 q hq), hget0]
  have heff := revokeExpired_effect env (reconcileAll env w l1).2 r r hgetA
    hstat
  rw [hgs, reconcileAll_append env l1 (r :: l2) w]
  simp only [reconcileAll]
  constructor
  · intro e hrev
    obtain ⟨hres, hrow, haud⟩ := heff.1 e hrev
    refine ⟨by rw [hres]; simp [isOkB], ?_, ?_⟩
    · rw [reconcileAll_frame env l2 _ r.requestID (fun q hq => hl2 q hq),
        hrow]
    · exact reconcileAll_audits_mono env l2 _ _ haud
  · intro hrev
    obtain ⟨hres, hrow, haud⟩ := heff.2 hrev
    refine ⟨?_, ?_⟩
    · rw [reconcileAll_frame env l2 _ r.requestID (fun q hq => hl2 q hq),
        hrow]
    · exact reconcileAll_audits_mono env l2 _ _ haud

/-! ## Claim C7: reconciler error isolation and tick outcome -/

/-- Two overdue GRANTED requests for distinct accounts. -/
def twoGrantedWorld : World :=
  { db := { configs := []
            requests :=
              [{ requestID := "req-1"
                 accountID := "acct1"
                 channelID := "ch1"
                 status := StatusGranted
                 endTime := "T1"
                 identityStoreUserID := "uid-1" },
               { requestID := "req-2"
                 accountID := "acct2"
                 channelID := "ch1"
                 status := StatusGranted
                 endTime := "T1"
                 identityStoreUserID := "uid-2" }] } }

/-- An identity provider that fails revokes for `acct1` and serves every
other account. -/
def failAcct1Env : Env :=
  { lookupUserByEmail := fun _ => .ok "uid-0"
    revokeAccess := fun acct _ =>
      if acct = "acct1" then .error "SSO unavailable" else .ok ()
    now := "T5"
    endTime := "T9"
    freshID := "fresh-1" }

/-- C7 counterexample: when one request's identity revoke fails, the tick is
not reported as a mere warning — `Reconciler.Handle` returns an aggregate
error (the Lambda invocation fails) — even though the other request is still
processed to EXPIRED. -/
theorem reconciler_tick_returns_error :
    (reconcilerHandle failAcct1Env twoGrantedWorld).1 =
      .error "reconciler completed with 1 errors out of 2" ∧
    (getRequest (reconcilerHandle failAcct1Env twoGrantedWorld).2.db
      "req-2").map (fun q => q.status) = some StatusExpired := ⟨rfl, rfl⟩

/-- C7 as amended: during a reconciler tick (request ids distinct), when the
identity revoke fails for one overdue request, that request is conditionally
updated GRANTED→ERROR with `error_details`, an ERROR audit event is emitted,
and every other overdue request whose identity revoke succeeds is still
processed to EXPIRED with its EXPIRED audit; but the tick as a whole then
returns an aggregate error (a warning is only logged), so the handler
reports failure rather than success. -/
theorem reconciler_isolates_error_but_tick_fails (env : Env) (w : World)
    (hnodup : (w.db.requests.map (fun q => q.requestID)).Nodup)
    (r : JitRequest) (hr : r ∈ overdueGrants w.db env.now) (e : String)
    (hfail : env.revokeAccess r.accountID r.identityStoreUserID = .error e) :
    (∃ msg, (reconcilerHandle env w).1 = .error msg) ∧
    getRequest (reconcilerHandle env w).2.db r.requestID =
      some { r with
             status := StatusError
             errorDetails := "reconciler revoke failed: " ++ e } ∧
    (⟨r.requestID, EventError, r.accountID, r.channelID, "", "reconciler",
      [("error", e)]⟩ : AuditRec) ∈ (reconcilerHandle env w).2.audits ∧
    (∀ r2 ∈ overdueGrants w.db env.now,
      env.revokeAccess r2.accountID r2.identityStoreUserID = .ok () →
      getRequest (reconcilerHandle env w).2.db r2.requestID =
        some { r2 with status := StatusExpired, expiredAt := env.now } ∧
      (⟨r2.requestID, EventExpired, r2.accountID, r2.channelID, "",
        "reconciler", []⟩ : AuditRec) ∈ (reconcilerHandle env w).2.audits) := by
  have hme := reconcileAll_member_effect env w hnodup r hr
  obtain ⟨hcnt, hrow, haud⟩ := hme.1 e hfail
  have hworld : (reconcilerHandle env w).2 =
      (reconcileAll env w (overdueGrants w.db env.now)).2 := by
    simp only [reconcilerHandle]
    split <;> rfl
  have herr : ∃ msg, (reconcilerHandle env w).1 = .error msg := by
    simp only [reconcilerHandle]
    rw [if_pos hcnt]
    exact ⟨_, rfl⟩
  refine ⟨herr, by rw [hworld]; exact hrow, by rw [hworld]; exact haud, ?_⟩
  intro r2 hr2 hok2
  have hme2 := (reconcileAll_member_effect env w hnodup r2 hr2).2 hok2
  exact ⟨by rw [hworld]; exact hme2.1, by rw [hworld]; exact hme2.2⟩

/-- Witness for `reconciler_isolates_error_but_tick_fails` on the concrete
two-request world. -/
theorem reconciler_isolates_error_but_tick_fails_witness :
    (∃ msg, (reconcilerHandle failAcct1Env twoGrantedWorld).1 =
      .error msg) ∧
    getRequest (reconcilerHandle failAcct1Env twoGrantedWorld).2.db "req-1" =
      some { requestID := "req-1"
             accountID := "acct1"
             channelID := "ch1"
             status := StatusError
             endTime := "T1"
             identityStoreUserID := "uid-1"
             errorDetails := "reconciler revoke failed: SSO unavailable" } ∧
    (⟨"req-1", EventError, "acct1", "ch1", "", "reconciler",
      [("error", "SSO unavailable")]⟩ : AuditRec) ∈
      (reconcilerHandle failAcct1Env twoGrantedWorld).2.audits := by
  have h := reconciler_isolates_error_but_tick_fails failAcct1Env
    twoGrantedWorld (by decide)
    { requestID := "req-1"
      accountID := "acct1"
      channelID := "ch1"
      status := StatusGranted
      endTime := "T1"
      identityStoreUserID := "uid-1" }
    (by decide) "SSO unavailable" rfl
  exact ⟨h.1, h.2.1, h.2.2.1⟩
